import Mathlib

/-!
# Reference-counted relocation of network interfaces

A shallow embedding of `pkg/kernel/networkservice/inject/common.go`.

* Go `error` values are modelled by their message (`Error := String`), a nil
  error by `none`.
* The Go map `vfRefCountMap map[string]int` is modelled by its lookup function
  `String → Option Int` (`none` = key absent).  Go's `int` is the 64-bit one:
  the increment of a count wraps around at 2^63 - 1 (`wrapInt`); the decrement
  is only made on a positive count and cannot wrap.
* Everything outside the package (netlink, netns, nshandle, FindHostDevice) is
  an oracle `OS` whose answers may depend on the whole history of events so
  far; every call is appended to the event trace.  The trace also records each
  entry into one of the three link-mutating functions of the package.
-/

set_option maxRecDepth 8000

namespace Inject

/-- The message of a Go error. -/
abbrev Error := String

/-- The Go type `netns.NsHandle` (an int file descriptor). -/
abbrev NsHandle := Int

/-- A `*netlink.Handle`. -/
abbrev Handle := Nat

/-- A `netlink.Link`. -/
abbrev Link := Nat

/-- A `kernellink.Link`: what `GetName()` and `GetLink()` return. -/
structure HostLink where
  name : String
  link : Link
deriving DecidableEq, Repr

/-- The record `vfconfig.VFConfig` (the fields used by the package). -/
structure VFConfig where
  VFPCIAddress : String
  VFInterfaceName : String
  ContNetNS : NsHandle
deriving DecidableEq, Repr

/-- The kernel mechanism of a connection: `GetInterfaceName()` and `GetNetNSURL()`. -/
structure Mechanism where
  interfaceName : String
  netNSURL : String
deriving DecidableEq, Repr

/-- The connection: `kernel.ToMechanism(conn.GetMechanism())` (nil when absent). -/
structure Connection where
  mechanism : Option Mechanism
deriving DecidableEq, Repr

/-- Everything observable that the package does, in order of occurrence. -/
inductive Event where
  /-- Call of `nshandle.Current()`. -/
  | current
  /-- Call of `nshandle.FromURL(url)`. -/
  | fromURL (url : String)
  /-- Call of `ns.Close()`. -/
  | close (ns : NsHandle)
  /-- Call of `vfRefCountMutex.Lock()`. -/
  | lock
  /-- Call of `vfRefCountMutex.Unlock()`. -/
  | unlock
  /-- Call of `kernellink.FindHostDevice(pciAddress, name, ns)`. -/
  | findHostDevice (pciAddress name : String) (ns : NsHandle)
  /-- Call of `netlink.NewHandleAt(ns)`. -/
  | newHandleAt (ns : NsHandle)
  /-- Call of `handle.LinkByName(name)`. -/
  | linkByName (h : Handle) (name : String)
  /-- Call of `handle.LinkSetNsFd(link, fd)`. -/
  | linkSetNsFd (h : Handle) (link : Link) (fd : Int)
  /-- Call of `handle.LinkSetDown(link)`. -/
  | linkSetDown (h : Handle) (link : Link)
  /-- Call of `handle.LinkSetName(link, name)`. -/
  | linkSetName (h : Handle) (link : Link) (name : String)
  /-- Call of `handle.LinkSetUp(link)`. -/
  | linkSetUp (h : Handle) (link : Link)
  /-- Call of the package-level `netlink.LinkSetName(link, name)`. -/
  | netlinkLinkSetName (link : Link) (name : String)
  /-- Entry into `moveInterfaceToAnotherNamespace(ifName, fromNetNS, toNetNS)` -/
  | callMove (ifName : String) (fromNetNS toNetNS : NsHandle)
  /-- Entry into `renameInterface(origIfName, desiredIfName, targetNetNS)` -/
  | callRename (origIfName desiredIfName : String) (targetNetNS : NsHandle)
  /-- Entry into `upInterface(ifName, targetNetNS)` -/
  | callUp (ifName : String) (targetNetNS : NsHandle)
deriving DecidableEq, Repr

/-- The environment: the answer to every external call, given the history of
events before the call. -/
structure OS where
  current : List Event → Except Error NsHandle
  fromURL : List Event → String → Except Error NsHandle
  /-- The string `NsHandle.String()` returns, used by `%v`. -/
  nsString : List Event → NsHandle → String
  /-- The link returned by `FindHostDevice` (nil = `none`); its error is ignored by the code -/
  findHostDevice : List Event → String → String → NsHandle → Option HostLink
  newHandleAt : List Event → NsHandle → Except Error Handle
  linkByName : List Event → Handle → String → Except Error Link
  linkSetNsFd : List Event → Handle → Link → Int → Option Error
  linkSetDown : List Event → Handle → Link → Option Error
  linkSetName : List Event → Handle → Link → String → Option Error
  linkSetUp : List Event → Handle → Link → Option Error
  netlinkLinkSetName : List Event → Link → String → Option Error

/-- The method `NsHandle.IsOpen()` of the netns library: the handle is not -1. -/
def IsOpen (ns : NsHandle) : Bool := ns != -1

/-- The function `strings.Contains(s, substr)`. -/
def stringsContains (s substr : String) : Bool := decide (substr.data <:+: s.data)

/-- The functions `errors.Wrap(err, message)` / `errors.Wrapf` for a non-nil `err`: the new
error's message is `message + ": " + err.Error()`. -/
def wrap (err : Error) (message : String) : Error := message ++ ": " ++ err

/-- The largest value of Go's `int` on a 64-bit platform, 2^63 - 1. -/
def maxInt : Int := 9223372036854775807

/-- The result of an arithmetic operation on Go's `int` (64-bit): the exact
result wrapped around into the range -2^63 .. 2^63 - 1. -/
def wrapInt (x : Int) : Int :=
  (x + 9223372036854775808) % 18446744073709551616 - 9223372036854775808

/-- The reference tracker `vfRefCountMap map[string]int`. -/
abbrev Tracker := String → Option Int

/-- The empty map. -/
def Tracker.empty : Tracker := fun _ => none

/-- The assignment `m[key] = value`. -/
def Tracker.set (m : Tracker) (key : String) (value : Int) : Tracker :=
  fun k => if k = key then some value else m k

/-- The statement `delete(m, key)`. -/
def Tracker.delete (m : Tracker) (key : String) : Tracker :=
  fun k => if k = key then none else m k

/-- The function `moveInterfaceToAnotherNamespace`. -/
def moveInterfaceToAnotherNamespace (os : OS) (ifName : String) (fromNetNS toNetNS : NsHandle)
    (tr : List Event) : Option Error × List Event :=
  let tr0 := tr ++ [Event.callMove ifName fromNetNS toNetNS]
  let tr1 := tr0 ++ [Event.newHandleAt fromNetNS]
  match os.newHandleAt tr0 fromNetNS with
  | .error err => (some (wrap err "failed to create netlink fromNetNS handle"), tr1)
  | .ok handle =>
    let tr2 := tr1 ++ [Event.linkByName handle ifName]
    match os.linkByName tr1 handle ifName with
    | .error err => (some (wrap err ("failed to get net interface: " ++ ifName)), tr2)
    | .ok link =>
      let tr3 := tr2 ++ [Event.linkSetNsFd handle link toNetNS]
      match os.linkSetNsFd tr2 handle link toNetNS with
      | some err =>
        (some (wrap err ("failed to move net interface to net NS: " ++ ifName ++ " "
          ++ os.nsString tr3 toNetNS)), tr3)
      | none => (none, tr3)

/-- The function `renameInterface`. -/
def renameInterface (os : OS) (origIfName desiredIfName : String) (targetNetNS : NsHandle)
    (tr : List Event) : Option Error × List Event :=
  let tr0 := tr ++ [Event.callRename origIfName desiredIfName targetNetNS]
  let tr1 := tr0 ++ [Event.newHandleAt targetNetNS]
  match os.newHandleAt tr0 targetNetNS with
  | .error err => (some (wrap err "failed to create netlink targetNetNS handle"), tr1)
  | .ok handle =>
    let tr2 := tr1 ++ [Event.linkByName handle origIfName]
    match os.linkByName tr1 handle origIfName with
    | .error err => (some (wrap err ("failed to get net interface: " ++ origIfName)), tr2)
    | .ok link =>
      let tr3 := tr2 ++ [Event.linkSetDown handle link]
      match os.linkSetDown tr2 handle link with
      | some err =>
        (some (wrap err ("failed to down net interface: " ++ origIfName ++ " -> "
          ++ desiredIfName)), tr3)
      | none =>
        let tr4 := tr3 ++ [Event.linkSetName handle link desiredIfName]
        match os.linkSetName tr3 handle link desiredIfName with
        | some err =>
          (some (wrap err ("failed to rename net interface: " ++ origIfName ++ " -> "
            ++ desiredIfName)), tr4)
        | none => (none, tr4)

/-- The function `upInterface`. -/
def upInterface (os : OS) (ifName : String) (targetNetNS : NsHandle)
    (tr : List Event) : Option Error × List Event :=
  let tr0 := tr ++ [Event.callUp ifName targetNetNS]
  let tr1 := tr0 ++ [Event.newHandleAt targetNetNS]
  match os.newHandleAt tr0 targetNetNS with
  | .error err => (some (wrap err "failed to create netlink NS handle"), tr1)
  | .ok handle =>
    let tr2 := tr1 ++ [Event.linkByName handle ifName]
    match os.linkByName tr1 handle ifName with
    | .error err => (some (wrap err ("failed to get net interface: " ++ ifName)), tr2)
    | .ok link =>
      let tr3 := tr2 ++ [Event.linkSetUp handle link]
      match os.linkSetUp tr2 handle link with
      | some err => (some (wrap err ("failed to up net interface: " ++ ifName)), tr3)
      | none => (none, tr3)

/-- What a relocation step leaves behind: the returned error, the map and the trace. -/
structure Out where
  err : Option Error
  tracker : Tracker
  trace : List Event

/-- The function `moveToContNetNS`; `vfConfig` is a pointer and may be nil. The
increment `vfRefCountMap[vfRefKey]++` is Go `int` arithmetic and wraps around. -/
def moveToContNetNS (os : OS) (vfConfig : Option VFConfig) (vfRefCountMap : Tracker)
    (vfRefKey ifName : String) (hostNetNS contNetNS : NsHandle) (tr : List Event) : Out :=
  match vfRefCountMap vfRefKey with
  | some count => ⟨none, vfRefCountMap.set vfRefKey (wrapInt (count + 1)), tr⟩
  | none =>
    let m := vfRefCountMap.set vfRefKey 1
    let tr1 := tr ++ [Event.findHostDevice "" ifName contNetNS]
    match os.findHostDevice tr "" ifName contNetNS with
    | some _ => ⟨none, m, tr1⟩
    | none =>
      let plain : Out :=
        let r := moveInterfaceToAnotherNamespace os ifName hostNetNS contNetNS tr1
        ⟨r.1, m, r.2⟩
      match vfConfig with
      | none => plain
      | some cfg =>
        if cfg.VFInterfaceName ≠ ifName then
          let r1 := moveInterfaceToAnotherNamespace os cfg.VFInterfaceName hostNetNS contNetNS tr1
          match r1.1 with
          | some err => ⟨some err, m, r1.2⟩
          | none =>
            let r2 := renameInterface os cfg.VFInterfaceName ifName contNetNS r1.2
            match r2.1 with
            | some err => ⟨some err, m, r2.2⟩
            | none =>
              let r3 := upInterface os ifName contNetNS r2.2
              ⟨r3.1, m, r3.2⟩
        else plain

/-- The function `moveToHostNetNS`; `vfConfig` is a pointer and may be nil. The
decrement `count - 1` is made under the guard `count > 0` and cannot wrap. -/
def moveToHostNetNS (os : OS) (vfConfig : Option VFConfig) (vfRefCountMap : Tracker)
    (vfRefKey ifName : String) (hostNetNS contNetNS : NsHandle) (tr : List Event) : Out :=
  match vfRefCountMap vfRefKey with
  | none => ⟨none, vfRefCountMap, tr⟩
  | some count =>
    if count > 0 then
      let refCount := count - 1
      let m := vfRefCountMap.set vfRefKey refCount
      if refCount = 0 then
        let m := m.delete vfRefKey
        let plain : Out :=
          let tr1 := tr ++ [Event.findHostDevice "" ifName hostNetNS]
          match os.findHostDevice tr "" ifName hostNetNS with
          | some _ => ⟨none, m, tr1⟩
          | none =>
            let r := moveInterfaceToAnotherNamespace os ifName contNetNS hostNetNS tr1
            ⟨r.1, m, r.2⟩
        match vfConfig with
        | none => plain
        | some cfg =>
          if cfg.VFInterfaceName ≠ ifName then
            let tr1 := tr ++ [Event.findHostDevice cfg.VFPCIAddress cfg.VFInterfaceName hostNetNS]
            match os.findHostDevice tr cfg.VFPCIAddress cfg.VFInterfaceName hostNetNS with
            | some link =>
              let linkName := link.name
              if linkName ≠ cfg.VFInterfaceName then
                let tr2 := tr1 ++ [Event.netlinkLinkSetName link.link cfg.VFInterfaceName]
                match os.netlinkLinkSetName tr1 link.link cfg.VFInterfaceName with
                | some err =>
                  ⟨some (wrap err ("failed to rename interface from " ++ linkName ++ " to "
                    ++ cfg.VFInterfaceName ++ ": " ++ err)), m, tr2⟩
                | none => ⟨none, m, tr2⟩
              else ⟨none, m, tr1⟩
            | none =>
              let r1 := renameInterface os ifName cfg.VFInterfaceName contNetNS tr1
              match r1.1 with
              | some err => ⟨some err, m, r1.2⟩
              | none =>
                let r2 := moveInterfaceToAnotherNamespace os cfg.VFInterfaceName contNetNS
                  hostNetNS r1.2
                ⟨r2.1, m, r2.2⟩
          else plain
      else ⟨none, m, tr⟩
    else ⟨none, vfRefCountMap, tr⟩

/-- What a call of `move` leaves behind: the returned error, the map, the trace
and the record behind the `vfConfig` pointer (`none` when `vfconfig.Load` found none). -/
structure MoveResult where
  err : Option Error
  tracker : Tracker
  trace : List Event
  vfConfig : Option VFConfig

/-- The final test of `move` on the error of the relocation step (lines 148-156). -/
def suppress (err : Option Error) : Option Error :=
  match err with
  | some e =>
    if stringsContains e "Link not found" || stringsContains e "bad file descriptor" then none
    else some e
  | none => none

/-- The deferred calls of `move` once both handles are resolved, in the order
they run: `Unlock`, then `contNetNS.Close()` when it was deferred, then
`hostNetNS.Close()`. -/
def deferred (isClient isMoveBack : Bool) (hostNetNS contNetNS : NsHandle) : List Event :=
  [Event.unlock] ++ (if !isClient || isMoveBack then [Event.close contNetNS] else [])
    ++ [Event.close hostNetNS]

/-- The function `move`; `loaded` is the result of `vfconfig.Load(ctx, isClient)` (`none` when not ok). -/
def move (os : OS) (conn : Connection) (loaded : Option VFConfig) (vfRefCountMap : Tracker)
    (isClient isMoveBack : Bool) (tr : List Event) : MoveResult :=
  match conn.mechanism with
  | none => ⟨none, vfRefCountMap, tr, loaded⟩
  | some mech =>
    match loaded with
    | none => ⟨none, vfRefCountMap, tr, none⟩
    | some vfConfig =>
      let tr1 := tr ++ [Event.current]
      match os.current tr with
      | .error err => ⟨some err, vfRefCountMap, tr1, some vfConfig⟩
      | .ok hostNetNS =>
        let tr2 := tr1 ++ [Event.fromURL mech.netNSURL]
        match os.fromURL tr1 mech.netNSURL with
        | .error err => ⟨some err, vfRefCountMap, tr2 ++ [Event.close hostNetNS], some vfConfig⟩
        | .ok resolved =>
          let contNetNS := if !IsOpen resolved && isMoveBack then vfConfig.ContNetNS else resolved
          let tr3 := tr2 ++ [Event.lock]
          let vfRefKey :=
            if vfConfig.VFPCIAddress = "" then vfConfig.VFInterfaceName else vfConfig.VFPCIAddress
          let ifName := mech.interfaceName
          let onExit := deferred isClient isMoveBack hostNetNS contNetNS
          if !isMoveBack then
            let r := moveToContNetNS os (some vfConfig) vfRefCountMap vfRefKey ifName hostNetNS
              contNetNS tr3
            match r.err with
            | some err =>
              let b := moveToHostNetNS os (some vfConfig) r.tracker vfRefKey ifName hostNetNS
                contNetNS r.trace
              ⟨suppress (some err), b.tracker, b.trace ++ onExit, some vfConfig⟩
            | none =>
              ⟨suppress none, r.tracker, r.trace ++ onExit,
                some { vfConfig with ContNetNS := contNetNS }⟩
          else
            let r := moveToHostNetNS os (some vfConfig) vfRefCountMap vfRefKey ifName hostNetNS
              contNetNS tr3
            ⟨suppress r.err, r.tracker, r.trace ++ onExit, some vfConfig⟩

/-! ## Vocabulary of the specification -/

/-- The reference key of a device (lines 131-134 of `move`): the PCI address,
or the host interface name when the address is empty. -/
def refKey (cfg : VFConfig) : String :=
  if cfg.VFPCIAddress = "" then cfg.VFInterfaceName else cfg.VFPCIAddress

/-- The target handle `move` works with (lines 117-119): the stored `ContNetNS`
when the resolved handle is not open and the call moves back. -/
def targetNS (cfg : VFConfig) (resolved : NsHandle) (isMoveBack : Bool) : NsHandle :=
  if !IsOpen resolved && isMoveBack then cfg.ContNetNS else resolved

/-- The trace at the moment `move` enters its relocation step: both handles
resolved and the lock taken. -/
def relocTrace (tr : List Event) (url : String) : List Event :=
  tr ++ [Event.current, Event.fromURL url, Event.lock]

/-- The error of the relocation step of `move` (the value of `err` when line 148
is reached), for a call that resolved the host handle to `host` and the URL of
the mechanism to `resolved`. -/
def relocErr (os : OS) (mech : Mechanism) (cfg : VFConfig) (t : Tracker) (isMoveBack : Bool)
    (tr : List Event) (host resolved : NsHandle) : Option Error :=
  if isMoveBack then
    (moveToHostNetNS os (some cfg) t (refKey cfg) mech.interfaceName host
      (targetNS cfg resolved true) (relocTrace tr mech.netNSURL)).err
  else
    (moveToContNetNS os (some cfg) t (refKey cfg) mech.interfaceName host resolved
      (relocTrace tr mech.netNSURL)).err

/-- Entries into the three link-mutating functions. -/
def Event.isCall : Event → Bool
  | .callMove _ _ _ => true
  | .callRename _ _ _ => true
  | .callUp _ _ => true
  | _ => false

/-- Closings of a namespace handle. -/
def Event.isClose : Event → Bool
  | .close _ => true
  | _ => false

/-- Everything that looks up or touches a link: all events but namespace
resolution, closing and locking. -/
def Event.isLinkOp : Event → Bool
  | .current => false
  | .fromURL _ => false
  | .close _ => false
  | .lock => false
  | .unlock => false
  | _ => true

/-- The entries into link-mutating functions recorded in a trace, in order. -/
def calls (tr : List Event) : List Event := tr.filter Event.isCall

/-- The handle closings recorded in a trace, in order. -/
def closes (tr : List Event) : List Event := tr.filter Event.isClose

/-- The link lookups and link operations recorded in a trace, in order. -/
def linkOps (tr : List Event) : List Event := tr.filter Event.isLinkOp

/-- The events of a `moveInterfaceToAnotherNamespace` of which every step
succeeds: entry, handle on the source namespace, lookup by name, `LinkSetNsFd`
into the target namespace; `handle` and `link` are what the environment returned. -/
def movedEvents (ifName : String) (fromNetNS toNetNS : NsHandle) (handle : Handle)
    (link : Link) : List Event :=
  [Event.callMove ifName fromNetNS toNetNS, Event.newHandleAt fromNetNS,
    Event.linkByName handle ifName, Event.linkSetNsFd handle link toNetNS]

/-- The events of a `renameInterface` of which every step succeeds: entry, handle
on the namespace, lookup by the old name, down, `LinkSetName` to the new name. -/
def renamedEvents (origIfName desiredIfName : String) (targetNetNS : NsHandle) (handle : Handle)
    (link : Link) : List Event :=
  [Event.callRename origIfName desiredIfName targetNetNS, Event.newHandleAt targetNetNS,
    Event.linkByName handle origIfName, Event.linkSetDown handle link,
    Event.linkSetName handle link desiredIfName]

/-- The events of an `upInterface` of which every step succeeds: entry, handle on
the namespace, lookup by name, `LinkSetUp`. -/
def upEvents (ifName : String) (targetNetNS : NsHandle) (handle : Handle) (link : Link) :
    List Event :=
  [Event.callUp ifName targetNetNS, Event.newHandleAt targetNetNS,
    Event.linkByName handle ifName, Event.linkSetUp handle link]

/-- After the history `tr`, the environment carries out a move of `ifName` from
`fromNetNS` to `toNetNS`: it returns `handle` for the source namespace, `link`
for the name, and no error for `LinkSetNsFd` of that link into `toNetNS`. -/
def OS.Moves (os : OS) (tr : List Event) (ifName : String) (fromNetNS toNetNS : NsHandle)
    (handle : Handle) (link : Link) : Prop :=
  os.newHandleAt (tr ++ [Event.callMove ifName fromNetNS toNetNS]) fromNetNS = .ok handle ∧
  os.linkByName (tr ++ [Event.callMove ifName fromNetNS toNetNS] ++ [Event.newHandleAt fromNetNS])
    handle ifName = .ok link ∧
  os.linkSetNsFd (tr ++ [Event.callMove ifName fromNetNS toNetNS] ++ [Event.newHandleAt fromNetNS]
    ++ [Event.linkByName handle ifName]) handle link toNetNS = none

/-- After the history `tr`, the environment carries out a rename of `origIfName`
to `desiredIfName` in `targetNetNS`: it returns `handle` for the namespace,
`link` for the old name, and no error for `LinkSetDown` and `LinkSetName`. -/
def OS.Renames (os : OS) (tr : List Event) (origIfName desiredIfName : String)
    (targetNetNS : NsHandle) (handle : Handle) (link : Link) : Prop :=
  os.newHandleAt (tr ++ [Event.callRename origIfName desiredIfName targetNetNS]) targetNetNS
    = .ok handle ∧
  os.linkByName (tr ++ [Event.callRename origIfName desiredIfName targetNetNS]
    ++ [Event.newHandleAt targetNetNS]) handle origIfName = .ok link ∧
  os.linkSetDown (tr ++ [Event.callRename origIfName desiredIfName targetNetNS]
    ++ [Event.newHandleAt targetNetNS] ++ [Event.linkByName handle origIfName]) handle link
    = none ∧
  os.linkSetName (tr ++ [Event.callRename origIfName desiredIfName targetNetNS]
    ++ [Event.newHandleAt targetNetNS] ++ [Event.linkByName handle origIfName]
    ++ [Event.linkSetDown handle link]) handle link desiredIfName = none

/-- After the history `tr`, the environment carries out a set-up of `ifName` in
`targetNetNS`: it returns `handle` for the namespace, `link` for the name, and
no error for `LinkSetUp`. -/
def OS.SetsUp (os : OS) (tr : List Event) (ifName : String) (targetNetNS : NsHandle)
    (handle : Handle) (link : Link) : Prop :=
  os.newHandleAt (tr ++ [Event.callUp ifName targetNetNS]) targetNetNS = .ok handle ∧
  os.linkByName (tr ++ [Event.callUp ifName targetNetNS] ++ [Event.newHandleAt targetNetNS])
    handle ifName = .ok link ∧
  os.linkSetUp (tr ++ [Event.callUp ifName targetNetNS] ++ [Event.newHandleAt targetNetNS]
    ++ [Event.linkByName handle ifName]) handle link = none

/-- Every key present has a count between 1 and `b`. -/
def Tracker.Bounded (t : Tracker) (b : Int) : Prop := ∀ k c, t k = some c → 1 ≤ c ∧ c ≤ b

/-- Every error the environment returns from a link operation has `substr` in
its message. -/
def OS.ErrorsContain (os : OS) (substr : String) : Prop :=
  (∀ tr ns e, os.newHandleAt tr ns = .error e → stringsContains e substr = true) ∧
  (∀ tr h name e, os.linkByName tr h name = .error e → stringsContains e substr = true) ∧
  (∀ tr h l fd e, os.linkSetNsFd tr h l fd = some e → stringsContains e substr = true) ∧
  (∀ tr h l e, os.linkSetDown tr h l = some e → stringsContains e substr = true) ∧
  (∀ tr h l name e, os.linkSetName tr h l name = some e → stringsContains e substr = true) ∧
  (∀ tr h l e, os.linkSetUp tr h l = some e → stringsContains e substr = true) ∧
  (∀ tr l name e, os.netlinkLinkSetName tr l name = some e → stringsContains e substr = true)

/-- Tracker invariant: every key present has a count of at least 1. -/
def Tracker.Inv (t : Tracker) : Prop := ∀ k c, t k = some c → 1 ≤ c

/-- One call of `move`: its arguments. -/
structure Call where
  conn : Connection
  loaded : Option VFConfig
  isClient : Bool
  isMoveBack : Bool

/-- A sequence of calls of `move` on one tracker, in order: the map and the trace
after the last call. -/
def runCalls (os : OS) : List Call → Tracker → List Event → Tracker × List Event
  | [], t, tr => (t, tr)
  | c :: cs, t, tr =>
    let r := move os c.conn c.loaded t c.isClient c.isMoveBack tr
    runCalls os cs r.tracker r.trace

/-- The call carries a mechanism and a `VFConfig` whose reference key is `key`. -/
def Call.references (c : Call) (key : String) : Bool :=
  match c.conn.mechanism, c.loaded with
  | some _, some cfg => refKey cfg == key
  | _, _ => false

/-- The number of attach calls (isMoveBack=false) in a sequence. -/
def attaches (cs : List Call) : Nat := (cs.filter (fun c => !c.isMoveBack)).length

/-- The number of detach calls (isMoveBack=true) in a sequence. -/
def detaches (cs : List Call) : Nat := (cs.filter (fun c => c.isMoveBack)).length

/-- The tracker entry that stands for a count: absent for 0. -/
def countEntry (n : Int) : Option Int := if n = 0 then none else some n

/-- The call, made on map `t` after the history `tr`, resolves both handles and,
when it is an attach, its forward relocation returns no error. -/
def stepSteady (os : OS) (c : Call) (t : Tracker) (tr : List Event) : Bool :=
  match c.conn.mechanism, c.loaded with
  | some mech, some cfg =>
    match os.current tr with
    | .ok host =>
      match os.fromURL (tr ++ [Event.current]) mech.netNSURL with
      | .ok resolved =>
        c.isMoveBack || (relocErr os mech cfg t false tr host resolved).isNone
      | .error _ => false
    | .error _ => false
  | _, _ => false

/-- Every call of the sequence is steady at the moment it is made. -/
def Steady (os : OS) : List Call → Tracker → List Event → Bool
  | [], _, _ => true
  | c :: cs, t, tr =>
    stepSteady os c t tr &&
      Steady os cs (move os c.conn c.loaded t c.isClient c.isMoveBack tr).tracker
        (move os c.conn c.loaded t c.isClient c.isMoveBack tr).trace

/-! ## Environments used as concrete inputs -/

/-- An environment in which every call succeeds and no device is ever found by
`FindHostDevice`; the host namespace is handle 3 and every URL resolves to handle 4. -/
def okOS : OS where
  current := fun _ => .ok 3
  fromURL := fun _ _ => .ok 4
  nsString := fun _ _ => "NS(4)"
  findHostDevice := fun _ _ _ _ => none
  newHandleAt := fun _ _ => .ok 1
  linkByName := fun _ _ _ => .ok 1
  linkSetNsFd := fun _ _ _ _ => none
  linkSetDown := fun _ _ _ => none
  linkSetName := fun _ _ _ _ => none
  linkSetUp := fun _ _ _ => none
  netlinkLinkSetName := fun _ _ _ => none

/-- An environment in which the link named vf0 is already there: `FindHostDevice`
always finds it. -/
def foundOS : OS :=
  { okOS with findHostDevice := fun _ _ _ _ => some ⟨"vf0", 9⟩ }

/-- An environment in which the device stays on the host: `FindHostDevice` finds
it there by its PCI address, and `LinkSetNsFd` fails. -/
def moveFailOS : OS :=
  { okOS with
    findHostDevice := fun _ pci _ _ => if pci = "0000:03:00.1" then some ⟨"eth1", 7⟩ else none
    linkSetNsFd := fun _ _ _ _ => some "operation not permitted" }

/-- An environment in which no link is found by name: `LinkByName` fails with
the message of netlink's `LinkNotFoundError`. -/
def notFoundOS : OS :=
  { okOS with linkByName := fun _ _ _ => .error "Link not found" }

/-- An environment in which `LinkByName` fails with the message written in lower case. -/
def lowerCaseOS : OS :=
  { okOS with linkByName := fun _ _ _ => .error "link not found" }

/-- An environment in which the device keeps its name eth1: `LinkByName` finds
eth1 and no other name, and `LinkSetName` fails. -/
def renameFailOS : OS :=
  { okOS with
    linkByName := fun _ _ name => if name = "eth1" then .ok 7 else .error "Link not found"
    linkSetName := fun _ _ _ _ => some "device or resource busy" }

/-- An environment in which no namespace URL resolves. -/
def noNamespaceOS : OS :=
  { okOS with fromURL := fun _ _ => .error "no such file or directory" }

/-! ### A kernel with one device

An environment that answers as a kernel holding the single device of the
scenario would: the device is in one namespace under one name at a time, a
lookup by name succeeds exactly where the device is under that name, and every
resolution of a namespace returns a fresh descriptor (even for the host, odd
for the container). Chosen calls can be made to fail. -/

/-- What the kernel knows after a history: where the device is, its name, and
how many calls of each kind were made. -/
structure Kernel where
  inContainer : Bool
  name : String
  resolutions : Nat
  setNsFdCalls : Nat
  setNameCalls : Nat
  setUpCalls : Nat
deriving DecidableEq, Repr

/-- Which calls fail: the n-th `LinkSetNsFd`, `LinkSetName`, `LinkSetUp` (from 0). -/
structure Faults where
  setNsFd : Nat → Bool
  setName : Nat → Bool
  setUp : Nat → Bool

/-- No call fails. -/
def Faults.none : Faults := ⟨fun _ => false, fun _ => false, fun _ => false⟩

/-- A descriptor of the container namespace: an odd number. -/
def isContainerFd (ns : Int) : Bool := ns % 2 == 1

/-- The effect of one event on the kernel. -/
def Kernel.step (f : Faults) (k : Kernel) : Event → Kernel
  | .current => { k with resolutions := k.resolutions + 1 }
  | .fromURL _ => { k with resolutions := k.resolutions + 1 }
  | .linkSetNsFd _ _ fd =>
    if f.setNsFd k.setNsFdCalls then { k with setNsFdCalls := k.setNsFdCalls + 1 }
    else { k with inContainer := isContainerFd fd, setNsFdCalls := k.setNsFdCalls + 1 }
  | .linkSetName _ _ name =>
    if f.setName k.setNameCalls then { k with setNameCalls := k.setNameCalls + 1 }
    else { k with name := name, setNameCalls := k.setNameCalls + 1 }
  | .netlinkLinkSetName _ name => { k with name := name }
  | .linkSetUp _ _ => { k with setUpCalls := k.setUpCalls + 1 }
  | _ => k

/-- The kernel after a history, starting with the device on the host as eth1. -/
def Kernel.after (f : Faults) (tr : List Event) : Kernel :=
  tr.foldl (Kernel.step f) ⟨false, "eth1", 0, 0, 0, 0⟩

/-- The environment of the kernel with one device (PCI address 0000:03:00.1).
A handle is the descriptor it was opened on; the link is number 7. -/
def kernelOS (f : Faults) : OS where
  current := fun tr => .ok (10 + 2 * ((Kernel.after f tr).resolutions : Int))
  fromURL := fun tr _ => .ok (11 + 2 * ((Kernel.after f tr).resolutions : Int))
  nsString := fun _ _ => "NS"
  findHostDevice := fun tr pci name ns =>
    if (Kernel.after f tr).inContainer == isContainerFd ns
        && (pci == "0000:03:00.1" || (pci == "" && name == (Kernel.after f tr).name))
    then some ⟨(Kernel.after f tr).name, 7⟩ else none
  newHandleAt := fun _ ns => .ok ns.toNat
  linkByName := fun tr h name =>
    if isContainerFd (h : Int) == (Kernel.after f tr).inContainer
        && name == (Kernel.after f tr).name
    then .ok 7 else .error "Link not found"
  linkSetNsFd := fun tr _ _ _ =>
    if f.setNsFd (Kernel.after f tr).setNsFdCalls then some "operation not permitted" else none
  linkSetDown := fun _ _ _ => none
  linkSetName := fun tr _ _ _ =>
    if f.setName (Kernel.after f tr).setNameCalls then some "device or resource busy" else none
  linkSetUp := fun tr _ _ =>
    if f.setUp (Kernel.after f tr).setUpCalls then some "operation not permitted" else none
  netlinkLinkSetName := fun _ _ _ => none

/-- The kernel in which the first `LinkSetUp` fails. -/
def firstUpFails : Faults := ⟨fun _ => false, fun _ => false, fun n => n == 0⟩

/-- The device of the scenario: PCI address 0000:03:00.1, host name eth1. -/
def vfEth1 : VFConfig := ⟨"0000:03:00.1", "eth1", -1⟩

/-- A connection asking for the interface name vf0. -/
def connVf0 : Connection := ⟨some ⟨"vf0", "file:///proc/42/ns/net"⟩⟩

/-- The attach of eth1 as vf0, as a call. -/
def attachVf0 : Call := ⟨connVf0, some vfEth1, true, false⟩

/-- The detach of eth1 as vf0, as a call. -/
def detachVf0 : Call := ⟨connVf0, some vfEth1, true, true⟩

/-! ## The two-connection scenario

Connections A and B both ask for the device eth1 (PCI address 0000:03:00.1)
under the name vf0; A attaches, B attaches, A detaches, B detaches, each through
`move`, starting from the empty tracker and the empty trace. Each connection
keeps its own `VFConfig` record between its attach and its detach. -/

/-- The state after connection A attached. -/
def afterAttachA (os : OS) (urlA : String) (clientA : Bool) : MoveResult :=
  move os ⟨some ⟨"vf0", urlA⟩⟩ (some vfEth1) Tracker.empty clientA false []

/-- The state after connection B attached as well. -/
def afterAttachB (os : OS) (urlA urlB : String) (clientA clientB : Bool) : MoveResult :=
  move os ⟨some ⟨"vf0", urlB⟩⟩ (some vfEth1) (afterAttachA os urlA clientA).tracker clientB false
    (afterAttachA os urlA clientA).trace

/-- The state after connection A detached. -/
def afterDetachA (os : OS) (urlA urlB : String) (clientA clientB : Bool) : MoveResult :=
  move os ⟨some ⟨"vf0", urlA⟩⟩ (afterAttachA os urlA clientA).vfConfig
    (afterAttachB os urlA urlB clientA clientB).tracker clientA true
    (afterAttachB os urlA urlB clientA clientB).trace

/-- The state after connection B detached as well. -/
def afterDetachB (os : OS) (urlA urlB : String) (clientA clientB : Bool) : MoveResult :=
  move os ⟨some ⟨"vf0", urlB⟩⟩ (afterAttachB os urlA urlB clientA clientB).vfConfig
    (afterDetachA os urlA urlB clientA clientB).tracker clientB true
    (afterDetachA os urlA urlB clientA clientB).trace

/-! ## Basic facts -/

/-- Reading the key just assigned. -/
@[simp] theorem Tracker.set_same (m : Tracker) (k : String) (v : Int) : m.set k v k = some v := by
  simp [Tracker.set]

/-- Reading the key just deleted. -/
@[simp] theorem Tracker.delete_same (m : Tracker) (k : String) : m.delete k k = none := by
  simp [Tracker.delete]

/-- An assignment leaves the other keys alone. -/
theorem Tracker.set_other (m : Tracker) (k k2 : String) (v : Int) (h : k2 ≠ k) :
    m.set k v k2 = m k2 := by
  simp [Tracker.set, h]

/-- A deletion leaves the other keys alone. -/
theorem Tracker.delete_other (m : Tracker) (k k2 : String) (h : k2 ≠ k) :
    m.delete k k2 = m k2 := by
  simp [Tracker.delete, h]

/-- Assigning an absent key and deleting it again restores the map. -/
theorem Tracker.delete_set_of_absent (m : Tracker) (k : String) (v : Int) (h : m k = none) :
    (m.set k v).delete k = m := by
  funext k2
  by_cases hk : k2 = k
  · subst hk; simp [h]
  · simp [Tracker.delete, Tracker.set, hk]

/-- Deleting a key forgets what was assigned to it. -/
theorem Tracker.delete_set (m : Tracker) (k : String) (v : Int) :
    (m.set k v).delete k = m.delete k := by
  funext k2
  by_cases hk : k2 = k
  · subst hk; simp
  · simp [Tracker.delete, Tracker.set, hk]

/-- The empty map satisfies the invariant. -/
theorem Tracker.inv_empty : Tracker.empty.Inv := by
  intro k c h
  simp [Tracker.empty] at h

/-- Assigning a count of at least 1 keeps the invariant. -/
theorem Tracker.inv_set (m : Tracker) (k : String) (v : Int) (h : m.Inv) (hv : 1 ≤ v) :
    (m.set k v).Inv := by
  intro k2 c hc
  by_cases hk : k2 = k
  · subst hk
    simp at hc
    omega
  · rw [Tracker.set_other m k k2 v hk] at hc
    exact h k2 c hc

/-- Deleting a key keeps the invariant. -/
theorem Tracker.inv_delete (m : Tracker) (k : String) (h : m.Inv) : (m.delete k).Inv := by
  intro k2 c hc
  by_cases hk : k2 = k
  · subst hk
    simp at hc
  · rw [Tracker.delete_other m k k2 hk] at hc
    exact h k2 c hc

/-- The empty map is within every bound. -/
theorem Tracker.bounded_empty (b : Int) : Tracker.empty.Bounded b := by
  intro k c h
  simp [Tracker.empty] at h

/-- A larger bound holds as well. -/
theorem Tracker.bounded_mono (t : Tracker) (b b2 : Int) (h : t.Bounded b) (hle : b ≤ b2) :
    t.Bounded b2 := by
  intro k c hc
  have := h k c hc
  omega

/-- Assigning a count within the bounds keeps them. -/
theorem Tracker.bounded_set (t : Tracker) (k : String) (v b : Int) (h : t.Bounded b)
    (h1 : 1 ≤ v) (h2 : v ≤ b) : (t.set k v).Bounded b := by
  intro k2 c hc
  by_cases hk : k2 = k
  · subst hk
    simp at hc
    omega
  · rw [Tracker.set_other t k k2 v hk] at hc
    exact h k2 c hc

/-- Deleting a key keeps the bounds. -/
theorem Tracker.bounded_delete (t : Tracker) (k : String) (b : Int) (h : t.Bounded b) :
    (t.delete k).Bounded b := by
  intro k2 c hc
  by_cases hk : k2 = k
  · subst hk
    simp at hc
  · rw [Tracker.delete_other t k k2 hk] at hc
    exact h k2 c hc

/-- A result within the range of Go's `int` is not changed by the wrap-around. -/
theorem wrapInt_of_range (x : Int) (hlo : -maxInt - 1 ≤ x) (hhi : x ≤ maxInt) : wrapInt x = x := by
  unfold wrapInt maxInt at *
  omega

/-- The map `moveToContNetNS` leaves: the key's count is one more than before (1
when it was absent), with Go's wrap-around, whatever the environment does. -/
theorem moveToContNetNS_tracker (os : OS) (vfConfig : Option VFConfig) (t : Tracker)
    (key ifName : String) (host cont : NsHandle) (tr : List Event) :
    (moveToContNetNS os vfConfig t key ifName host cont tr).tracker =
      match t key with
      | some count => t.set key (wrapInt (count + 1))
      | none => t.set key 1 := by
  unfold moveToContNetNS
  cases t key with
  | some count => rfl
  | none =>
    simp only
    cases os.findHostDevice tr "" ifName cont with
    | some l => rfl
    | none =>
      cases vfConfig with
      | none => rfl
      | some cfg =>
        simp only
        split
        · split
          · rfl
          · split <;> rfl
        · rfl

/-- The map `moveToHostNetNS` leaves: a positive count is decremented, and the
key is deleted when the count reaches 0, whatever the environment does. -/
theorem moveToHostNetNS_tracker (os : OS) (vfConfig : Option VFConfig) (t : Tracker)
    (key ifName : String) (host cont : NsHandle) (tr : List Event) :
    (moveToHostNetNS os vfConfig t key ifName host cont tr).tracker =
      match t key with
      | none => t
      | some count =>
        if count > 0 then
          if count - 1 = 0 then (t.set key (count - 1)).delete key else t.set key (count - 1)
        else t := by
  unfold moveToHostNetNS
  cases t key with
  | none => rfl
  | some count =>
    simp only
    by_cases hpos : count > 0
    · simp only [hpos, if_true]
      by_cases hz : count - 1 = 0
      · simp only [hz, if_true]
        cases vfConfig with
        | none =>
          simp only
          split <;> rfl
        | some cfg =>
          simp only
          split
          · split
            · split
              · split <;> rfl
              · rfl
            · split <;> rfl
          · split <;> rfl
      · simp only [hz, if_false]
    · simp only [hpos, if_false]

/-- An attach through `move`, once both handles are resolved, is the forward
relocation, followed by the rollback when the forward relocation failed. -/
theorem move_attach (os : OS) (mech : Mechanism) (cfg : VFConfig) (t : Tracker)
    (isClient : Bool) (tr : List Event) (host resolved : NsHandle)
    (hcur : os.current tr = .ok host)
    (hurl : os.fromURL (tr ++ [Event.current]) mech.netNSURL = .ok resolved) :
    move os ⟨some mech⟩ (some cfg) t isClient false tr =
      match (moveToContNetNS os (some cfg) t (refKey cfg) mech.interfaceName host resolved
          (relocTrace tr mech.netNSURL)).err with
      | some err =>
        ⟨suppress (some err),
          (moveToHostNetNS os (some cfg)
            (moveToContNetNS os (some cfg) t (refKey cfg) mech.interfaceName host resolved
              (relocTrace tr mech.netNSURL)).tracker
            (refKey cfg) mech.interfaceName host resolved
            (moveToContNetNS os (some cfg) t (refKey cfg) mech.interfaceName host resolved
              (relocTrace tr mech.netNSURL)).trace).tracker,
          (moveToHostNetNS os (some cfg)
            (moveToContNetNS os (some cfg) t (refKey cfg) mech.interfaceName host resolved
              (relocTrace tr mech.netNSURL)).tracker
            (refKey cfg) mech.interfaceName host resolved
            (moveToContNetNS os (some cfg) t (refKey cfg) mech.interfaceName host resolved
              (relocTrace tr mech.netNSURL)).trace).trace
            ++ deferred isClient false host resolved,
          some cfg⟩
      | none =>
        ⟨none,
          (moveToContNetNS os (some cfg) t (refKey cfg) mech.interfaceName host resolved
            (relocTrace tr mech.netNSURL)).tracker,
          (moveToContNetNS os (some cfg) t (refKey cfg) mech.interfaceName host resolved
            (relocTrace tr mech.netNSURL)).trace ++ deferred isClient false host resolved,
          some { cfg with ContNetNS := resolved }⟩ := by
  simp [move, hcur, hurl, refKey, relocTrace, suppress]

/-- A detach through `move`, once both handles are resolved, is the reverse
relocation on the target handle. -/
theorem move_detach (os : OS) (mech : Mechanism) (cfg : VFConfig) (t : Tracker)
    (isClient : Bool) (tr : List Event) (host resolved : NsHandle)
    (hcur : os.current tr = .ok host)
    (hurl : os.fromURL (tr ++ [Event.current]) mech.netNSURL = .ok resolved) :
    move os ⟨some mech⟩ (some cfg) t isClient true tr =
      ⟨suppress (moveToHostNetNS os (some cfg) t (refKey cfg) mech.interfaceName host
          (targetNS cfg resolved true) (relocTrace tr mech.netNSURL)).err,
        (moveToHostNetNS os (some cfg) t (refKey cfg) mech.interfaceName host
          (targetNS cfg resolved true) (relocTrace tr mech.netNSURL)).tracker,
        (moveToHostNetNS os (some cfg) t (refKey cfg) mech.interfaceName host
          (targetNS cfg resolved true) (relocTrace tr mech.netNSURL)).trace
          ++ deferred isClient true host (targetNS cfg resolved true),
        some cfg⟩ := by
  simp [move, hcur, hurl, refKey, relocTrace, targetNS]

/-- The forward relocation keeps the tracker invariant when the count of the
key is below the largest `int`. -/
theorem moveToContNetNS_inv (os : OS) (vfConfig : Option VFConfig) (t : Tracker)
    (key ifName : String) (host cont : NsHandle) (tr : List Event) (hinv : t.Inv)
    (hbound : ∀ c, t key = some c → c < maxInt) :
    (moveToContNetNS os vfConfig t key ifName host cont tr).tracker.Inv := by
  rw [moveToContNetNS_tracker]
  cases hk : t key with
  | none => exact Tracker.inv_set t key 1 hinv (le_refl 1)
  | some count =>
    have h1 := hinv key count hk
    have h2 := hbound count hk
    have h3 : wrapInt (count + 1) = count + 1 :=
      wrapInt_of_range _ (by unfold maxInt; omega) (by omega)
    simp only [h3]
    exact Tracker.inv_set t key (count + 1) hinv (by omega)

/-- The reverse relocation keeps the tracker invariant. -/
theorem moveToHostNetNS_inv (os : OS) (vfConfig : Option VFConfig) (t : Tracker)
    (key ifName : String) (host cont : NsHandle) (tr : List Event) (hinv : t.Inv) :
    (moveToHostNetNS os vfConfig t key ifName host cont tr).tracker.Inv := by
  rw [moveToHostNetNS_tracker]
  cases hk : t key with
  | none => exact hinv
  | some count =>
    have h1 := hinv key count hk
    simp only
    by_cases hpos : count > 0
    · simp only [hpos, if_true]
      by_cases hz : count - 1 = 0
      · simp only [hz, if_true]
        rw [Tracker.delete_set]
        exact Tracker.inv_delete t key hinv
      · simp only [hz, if_false]
        exact Tracker.inv_set t key (count - 1) hinv (by omega)
    · simp only [hpos, if_false]
      exact hinv

/-- Every call of `move` keeps the tracker invariant, an attach when the count of
the key of the loaded record is below the largest `int`. -/
theorem move_inv (os : OS) (conn : Connection) (loaded : Option VFConfig) (t : Tracker)
    (isClient isMoveBack : Bool) (tr : List Event) (hinv : t.Inv)
    (hbound : isMoveBack = false →
      ∀ cfg c, loaded = some cfg → t (refKey cfg) = some c → c < maxInt) :
    (move os conn loaded t isClient isMoveBack tr).tracker.Inv := by
  obtain ⟨mechanism⟩ := conn
  cases mechanism with
  | none => simpa [move] using hinv
  | some mech =>
    cases loaded with
    | none => simpa [move] using hinv
    | some cfg =>
      cases hcur : os.current tr with
      | error e => simpa [move, hcur] using hinv
      | ok host =>
        cases hurl : os.fromURL (tr ++ [Event.current]) mech.netNSURL with
        | error e => simpa [move, hcur, hurl] using hinv
        | ok resolved =>
          cases isMoveBack with
          | false =>
            have hfwd := moveToContNetNS_inv os (some cfg) t (refKey cfg) mech.interfaceName
              host resolved (relocTrace tr mech.netNSURL) hinv
              (fun c hc => hbound rfl cfg c rfl hc)
            rw [move_attach os mech cfg t isClient tr host resolved hcur hurl]
            split
            · exact moveToHostNetNS_inv _ _ _ _ _ _ _ _ hfwd
            · exact hfwd
          | true =>
            rw [move_detach os mech cfg t isClient tr host resolved hcur hurl]
            exact moveToHostNetNS_inv _ _ _ _ _ _ _ _ hinv

/-- A forward relocation that returns an error found the key absent. -/
theorem moveToContNetNS_err_absent (os : OS) (vfConfig : Option VFConfig) (t : Tracker)
    (key ifName : String) (host cont : NsHandle) (tr : List Event) (err : Error)
    (hfail : (moveToContNetNS os vfConfig t key ifName host cont tr).err = some err) :
    t key = none := by
  cases hk : t key with
  | none => rfl
  | some count => simp [moveToContNetNS, hk] at hfail

/-- The rollback after a failed forward relocation restores the map. -/
theorem rollback_tracker (os os2 : OS) (vfConfig vfConfig2 : Option VFConfig) (t : Tracker)
    (key ifName : String) (host cont : NsHandle) (tr tr2 : List Event)
    (habsent : t key = none) :
    (moveToHostNetNS os2 vfConfig2
      (moveToContNetNS os vfConfig t key ifName host cont tr).tracker
      key ifName host cont tr2).tracker = t := by
  rw [moveToHostNetNS_tracker, moveToContNetNS_tracker, habsent]
  simp [Tracker.delete_set, Tracker.delete_set_of_absent _ _ _ habsent]

/-- An attach through `move` whose forward relocation fails leaves the map and
the `VFConfig` record as they were. -/
theorem move_attach_failed (os : OS) (mech : Mechanism) (cfg : VFConfig)
    (t : Tracker) (isClient : Bool) (tr : List Event) (host resolved : NsHandle) (err : Error)
    (hcur : os.current tr = .ok host)
    (hurl : os.fromURL (tr ++ [Event.current]) mech.netNSURL = .ok resolved)
    (hfail : (moveToContNetNS os (some cfg) t (refKey cfg) mech.interfaceName host resolved
      (relocTrace tr mech.netNSURL)).err = some err) :
    (move os ⟨some mech⟩ (some cfg) t isClient false tr).tracker = t ∧
    (move os ⟨some mech⟩ (some cfg) t isClient false tr).vfConfig = some cfg := by
  have habsent := moveToContNetNS_err_absent _ _ _ _ _ _ _ _ _ hfail
  rw [move_attach os mech cfg t isClient tr host resolved hcur hurl, hfail]
  exact ⟨rollback_tracker _ _ _ _ _ _ _ _ _ _ _ habsent, rfl⟩

/-- The forward relocation on a key that is held: one more count (with Go's wrap-around), nothing else. -/
theorem moveToContNetNS_held (os : OS) (vfConfig : Option VFConfig) (t : Tracker)
    (key ifName : String) (host cont : NsHandle) (tr : List Event) (count : Int)
    (hheld : t key = some count) :
    moveToContNetNS os vfConfig t key ifName host cont tr
      = ⟨none, t.set key (wrapInt (count + 1)), tr⟩ := by
  simp [moveToContNetNS, hheld]

/-- An attach through `move` on a key that is held: the count goes up by one and
the trace gains the resolution of the handles, the lock and the deferred calls only. -/
theorem move_attach_held (os : OS) (mech : Mechanism) (cfg : VFConfig) (t : Tracker)
    (isClient : Bool) (tr : List Event) (host resolved : NsHandle) (count : Int)
    (hcur : os.current tr = .ok host)
    (hurl : os.fromURL (tr ++ [Event.current]) mech.netNSURL = .ok resolved)
    (hheld : t (refKey cfg) = some count) :
    move os ⟨some mech⟩ (some cfg) t isClient false tr =
      ⟨none, t.set (refKey cfg) (wrapInt (count + 1)),
        relocTrace tr mech.netNSURL ++ deferred isClient false host resolved,
        some { cfg with ContNetNS := resolved }⟩ := by
  rw [move_attach os mech cfg t isClient tr host resolved hcur hurl,
    moveToContNetNS_held os (some cfg) t (refKey cfg) _ host resolved _ count hheld]

/-- The resolution of the handles, the lock and the deferred calls are no link operations. -/
theorem linkOps_relocTrace_deferred (tr : List Event) (url : String) (isClient isMoveBack : Bool)
    (host cont : NsHandle) :
    linkOps (relocTrace tr url ++ deferred isClient isMoveBack host cont) = linkOps tr := by
  cases isClient <;> cases isMoveBack <;>
    simp [linkOps, relocTrace, deferred, List.filter_append, Event.isLinkOp]

/-- What `move` returns once both handles are resolved: the error of the
relocation step, passed through the final test. -/
theorem move_err (os : OS) (mech : Mechanism) (cfg : VFConfig) (t : Tracker)
    (isClient isMoveBack : Bool) (tr : List Event) (host resolved : NsHandle)
    (hcur : os.current tr = .ok host)
    (hurl : os.fromURL (tr ++ [Event.current]) mech.netNSURL = .ok resolved) :
    (move os ⟨some mech⟩ (some cfg) t isClient isMoveBack tr).err
      = suppress (relocErr os mech cfg t isMoveBack tr host resolved) := by
  cases isMoveBack with
  | true =>
    rw [move_detach os mech cfg t isClient tr host resolved hcur hurl]
    simp [relocErr]
  | false =>
    rw [move_attach os mech cfg t isClient tr host resolved hcur hurl]
    simp only [relocErr, Bool.false_eq_true, if_false]
    split
    · next err h => rw [h]
    · next h => rw [h]; rfl

/-- Wrapping an error keeps every substring of its message. -/
theorem stringsContains_wrap (err message substr : String)
    (h : stringsContains err substr = true) :
    stringsContains (wrap err message) substr = true := by
  simp only [stringsContains, decide_eq_true_eq] at h ⊢
  simp only [wrap, String.data_append]
  exact h.trans (List.suffix_append _ _).isInfix

/-- The function `moveInterfaceToAnotherNamespace` closes no namespace handle. -/
theorem closes_moveInterface (os : OS) (ifName : String) (a b : NsHandle) (tr : List Event) :
    closes (moveInterfaceToAnotherNamespace os ifName a b tr).2 = closes tr := by
  unfold moveInterfaceToAnotherNamespace
  simp only
  split
  · simp [closes, List.filter_append, Event.isClose]
  · split
    · simp [closes, List.filter_append, Event.isClose]
    · split <;> simp [closes, List.filter_append, Event.isClose]

/-- The function `renameInterface` closes no namespace handle. -/
theorem closes_renameInterface (os : OS) (a b : String) (ns : NsHandle) (tr : List Event) :
    closes (renameInterface os a b ns tr).2 = closes tr := by
  unfold renameInterface
  simp only
  split
  · simp [closes, List.filter_append, Event.isClose]
  · split
    · simp [closes, List.filter_append, Event.isClose]
    · split
      · simp [closes, List.filter_append, Event.isClose]
      · split <;> simp [closes, List.filter_append, Event.isClose]

/-- The function `upInterface` closes no namespace handle. -/
theorem closes_upInterface (os : OS) (ifName : String) (ns : NsHandle) (tr : List Event) :
    closes (upInterface os ifName ns tr).2 = closes tr := by
  unfold upInterface
  simp only
  split
  · simp [closes, List.filter_append, Event.isClose]
  · split
    · simp [closes, List.filter_append, Event.isClose]
    · split <;> simp [closes, List.filter_append, Event.isClose]

/-- A lookup by `FindHostDevice` is no closing. -/
theorem closes_findHostDevice (tr : List Event) (pci name : String) (ns : NsHandle) :
    closes (tr ++ [Event.findHostDevice pci name ns]) = closes tr := by
  simp [closes, List.filter_append, Event.isClose]

/-- The forward relocation closes no namespace handle. -/
theorem closes_moveToContNetNS (os : OS) (vfConfig : Option VFConfig) (t : Tracker)
    (key ifName : String) (host cont : NsHandle) (tr : List Event) :
    closes (moveToContNetNS os vfConfig t key ifName host cont tr).trace = closes tr := by
  unfold moveToContNetNS
  cases t key with
  | some count => rfl
  | none =>
    simp only
    cases os.findHostDevice tr "" ifName cont with
    | some l => exact closes_findHostDevice _ _ _ _
    | none =>
      have hplain : closes (moveInterfaceToAnotherNamespace os ifName host cont
          (tr ++ [Event.findHostDevice "" ifName cont])).2 = closes tr := by
        rw [closes_moveInterface, closes_findHostDevice]
      cases vfConfig with
      | none => exact hplain
      | some cfg =>
        simp only
        split
        · split
          · simp only [closes_moveInterface, closes_findHostDevice]
          · split
            · simp only [closes_renameInterface, closes_moveInterface, closes_findHostDevice]
            · simp only [closes_upInterface, closes_renameInterface, closes_moveInterface,
                closes_findHostDevice]
        · exact hplain

/-- The reverse relocation closes no namespace handle. -/
theorem closes_moveToHostNetNS (os : OS) (vfConfig : Option VFConfig) (t : Tracker)
    (key ifName : String) (host cont : NsHandle) (tr : List Event) :
    closes (moveToHostNetNS os vfConfig t key ifName host cont tr).trace = closes tr := by
  unfold moveToHostNetNS
  cases t key with
  | none => rfl
  | some count =>
    simp only
    by_cases hpos : count > 0
    · simp only [hpos, if_true]
      by_cases hz : count - 1 = 0
      · simp only [hz, if_true]
        have hplain : closes (match os.findHostDevice tr "" ifName host with
            | some _ => (⟨none, ((t.set key 0).delete key),
                tr ++ [Event.findHostDevice "" ifName host]⟩ : Out)
            | none => ⟨(moveInterfaceToAnotherNamespace os ifName cont host
                  (tr ++ [Event.findHostDevice "" ifName host])).1, ((t.set key 0).delete key),
                (moveInterfaceToAnotherNamespace os ifName cont host
                  (tr ++ [Event.findHostDevice "" ifName host])).2⟩).trace = closes tr := by
          split
          · exact closes_findHostDevice _ _ _ _
          · simp only [closes_moveInterface, closes_findHostDevice]
        cases vfConfig with
        | none => exact hplain
        | some cfg =>
          simp only
          split
          · split
            · split
              · split <;>
                  simp [closes, List.filter_append, Event.isClose]
              · exact closes_findHostDevice _ _ _ _
            · split
              · simp only [closes_renameInterface, closes_findHostDevice]
              · simp only [closes_moveInterface, closes_renameInterface, closes_findHostDevice]
          · exact hplain
      · simp only [hz, if_false]
    · simp only [hpos, if_false]

/-- The closings in the trace at the relocation step are those before the call. -/
theorem closes_relocTrace (tr : List Event) (url : String) :
    closes (relocTrace tr url) = closes tr := by
  simp [closes, relocTrace, List.filter_append, Event.isClose]

/-- The closings `move` adds on an attach: the target handle unless the call is
on the client side, then the host handle. -/
theorem closes_move_attach (os : OS) (mech : Mechanism) (cfg : VFConfig) (t : Tracker)
    (isClient : Bool) (tr : List Event) (host resolved : NsHandle)
    (hcur : os.current tr = .ok host)
    (hurl : os.fromURL (tr ++ [Event.current]) mech.netNSURL = .ok resolved) :
    closes (move os ⟨some mech⟩ (some cfg) t isClient false tr).trace
      = closes tr ++ (if isClient then [] else [Event.close resolved]) ++ [Event.close host] := by
  rw [move_attach os mech cfg t isClient tr host resolved hcur hurl]
  have hd : closes (deferred isClient false host resolved)
      = (if isClient then [] else [Event.close resolved]) ++ [Event.close host] := by
    cases isClient <;> simp [closes, deferred, Event.isClose]
  split
  · simp only [closes, List.filter_append] at hd ⊢
    rw [hd]
    have h1 := closes_moveToHostNetNS os (some cfg)
      (moveToContNetNS os (some cfg) t (refKey cfg) mech.interfaceName host resolved
        (relocTrace tr mech.netNSURL)).tracker (refKey cfg) mech.interfaceName host resolved
      (moveToContNetNS os (some cfg) t (refKey cfg) mech.interfaceName host resolved
        (relocTrace tr mech.netNSURL)).trace
    have h2 := closes_moveToContNetNS os (some cfg) t (refKey cfg) mech.interfaceName host
      resolved (relocTrace tr mech.netNSURL)
    have h3 := closes_relocTrace tr mech.netNSURL
    simp only [closes] at h1 h2 h3
    rw [h1, h2, h3, List.append_assoc]
  · simp only [closes, List.filter_append] at hd ⊢
    rw [hd]
    have h2 := closes_moveToContNetNS os (some cfg) t (refKey cfg) mech.interfaceName host
      resolved (relocTrace tr mech.netNSURL)
    have h3 := closes_relocTrace tr mech.netNSURL
    simp only [closes] at h2 h3
    rw [h2, h3, List.append_assoc]

/-- The reverse relocation by the last user of a device that has to be renamed,
as far as the lookup on the host. -/
theorem moveToHostNetNS_last_renamed (os : OS) (cfg : VFConfig) (t : Tracker)
    (key ifName : String) (host cont : NsHandle) (tr : List Event)
    (hone : t key = some 1) (hname : cfg.VFInterfaceName ≠ ifName) :
    moveToHostNetNS os (some cfg) t key ifName host cont tr =
      match os.findHostDevice tr cfg.VFPCIAddress cfg.VFInterfaceName host with
      | some link =>
        if link.name ≠ cfg.VFInterfaceName then
          match os.netlinkLinkSetName
            (tr ++ [Event.findHostDevice cfg.VFPCIAddress cfg.VFInterfaceName host])
            link.link cfg.VFInterfaceName with
          | some err =>
            ⟨some (wrap err ("failed to rename interface from " ++ link.name ++ " to "
              ++ cfg.VFInterfaceName ++ ": " ++ err)), (t.set key 0).delete key,
              tr ++ [Event.findHostDevice cfg.VFPCIAddress cfg.VFInterfaceName host]
                ++ [Event.netlinkLinkSetName link.link cfg.VFInterfaceName]⟩
          | none =>
            ⟨none, (t.set key 0).delete key,
              tr ++ [Event.findHostDevice cfg.VFPCIAddress cfg.VFInterfaceName host]
                ++ [Event.netlinkLinkSetName link.link cfg.VFInterfaceName]⟩
        else
          ⟨none, (t.set key 0).delete key,
            tr ++ [Event.findHostDevice cfg.VFPCIAddress cfg.VFInterfaceName host]⟩
      | none =>
        match (renameInterface os ifName cfg.VFInterfaceName cont
            (tr ++ [Event.findHostDevice cfg.VFPCIAddress cfg.VFInterfaceName host])).1 with
        | some err =>
          ⟨some err, (t.set key 0).delete key,
            (renameInterface os ifName cfg.VFInterfaceName cont
              (tr ++ [Event.findHostDevice cfg.VFPCIAddress cfg.VFInterfaceName host])).2⟩
        | none =>
          ⟨(moveInterfaceToAnotherNamespace os cfg.VFInterfaceName cont host
              (renameInterface os ifName cfg.VFInterfaceName cont
                (tr ++ [Event.findHostDevice cfg.VFPCIAddress cfg.VFInterfaceName host])).2).1,
            (t.set key 0).delete key,
            (moveInterfaceToAnotherNamespace os cfg.VFInterfaceName cont host
              (renameInterface os ifName cfg.VFInterfaceName cont
                (tr ++ [Event.findHostDevice cfg.VFPCIAddress cfg.VFInterfaceName host])).2).2⟩ := by
  simp [moveToHostNetNS, hone, hname]

/-- The reverse relocation while other users remain: one count less, nothing else. -/
theorem moveToHostNetNS_not_last (os : OS) (vfConfig : Option VFConfig) (t : Tracker)
    (key ifName : String) (host cont : NsHandle) (tr : List Event) (count : Int)
    (hheld : t key = some count) (hmore : 1 < count) :
    moveToHostNetNS os vfConfig t key ifName host cont tr
      = ⟨none, t.set key (count - 1), tr⟩ := by
  have h1 : count > 0 := by omega
  have h2 : ¬ (count - 1 = 0) := by omega
  simp [moveToHostNetNS, hheld, h1, h2]

/-- When the environment carries the move out, `moveInterfaceToAnotherNamespace`
returns no error and records the events of a successful move. -/
theorem moveInterface_of_moves (os : OS) (ifName : String) (a b : NsHandle) (tr : List Event)
    (handle : Handle) (link : Link) (h : os.Moves tr ifName a b handle link) :
    moveInterfaceToAnotherNamespace os ifName a b tr
      = (none, tr ++ movedEvents ifName a b handle link) := by
  obtain ⟨h1, h2, h3⟩ := h
  simp only [List.append_assoc, List.singleton_append, List.cons_append, List.nil_append] at h2 h3
  simp [moveInterfaceToAnotherNamespace, h1, h2, h3, movedEvents]

/-- When the environment carries the rename out, `renameInterface` returns no
error and records the events of a successful rename. -/
theorem renameInterface_of_renames (os : OS) (a b : String) (ns : NsHandle) (tr : List Event)
    (handle : Handle) (link : Link) (h : os.Renames tr a b ns handle link) :
    renameInterface os a b ns tr = (none, tr ++ renamedEvents a b ns handle link) := by
  obtain ⟨h1, h2, h3, h4⟩ := h
  simp only [List.append_assoc, List.singleton_append, List.cons_append, List.nil_append] at h2 h3 h4
  simp [renameInterface, h1, h2, h3, h4, renamedEvents]

/-- When the environment carries the set-up out, `upInterface` returns no error
and records the events of a successful set-up. -/
theorem upInterface_of_setsUp (os : OS) (ifName : String) (ns : NsHandle) (tr : List Event)
    (handle : Handle) (link : Link) (h : os.SetsUp tr ifName ns handle link) :
    upInterface os ifName ns tr = (none, tr ++ upEvents ifName ns handle link) := by
  obtain ⟨h1, h2, h3⟩ := h
  simp only [List.append_assoc, List.singleton_append, List.cons_append, List.nil_append] at h2 h3
  simp [upInterface, h1, h2, h3, upEvents]

/-- The forward relocation of a device that has to be renamed, on a key not yet
held and with no link of the target name found, when the environment carries
out the move, the rename and the set-up: exactly these are made, in that order. -/
theorem moveToContNetNS_fresh_renamed (os : OS) (cfg : VFConfig) (t : Tracker)
    (key ifName : String) (host cont : NsHandle) (tr : List Event)
    (hd1 hd2 hd3 : Handle) (l1 l2 l3 : Link)
    (habsent : t key = none)
    (hnone : os.findHostDevice tr "" ifName cont = none)
    (hname : cfg.VFInterfaceName ≠ ifName)
    (hmove : os.Moves (tr ++ [Event.findHostDevice "" ifName cont]) cfg.VFInterfaceName host cont
      hd1 l1)
    (hren : os.Renames (tr ++ [Event.findHostDevice "" ifName cont]
      ++ movedEvents cfg.VFInterfaceName host cont hd1 l1) cfg.VFInterfaceName ifName cont hd2 l2)
    (hup : os.SetsUp (tr ++ [Event.findHostDevice "" ifName cont]
      ++ movedEvents cfg.VFInterfaceName host cont hd1 l1
      ++ renamedEvents cfg.VFInterfaceName ifName cont hd2 l2) ifName cont hd3 l3) :
    moveToContNetNS os (some cfg) t key ifName host cont tr =
      ⟨none, t.set key 1,
        tr ++ [Event.findHostDevice "" ifName cont]
          ++ movedEvents cfg.VFInterfaceName host cont hd1 l1
          ++ renamedEvents cfg.VFInterfaceName ifName cont hd2 l2
          ++ upEvents ifName cont hd3 l3⟩ := by
  simp only [moveToContNetNS, habsent, hnone, ne_eq, hname, not_false_eq_true, if_true,
    moveInterface_of_moves _ _ _ _ _ _ _ hmove, renameInterface_of_renames _ _ _ _ _ _ _ hren,
    upInterface_of_setsUp _ _ _ _ _ _ hup]

/-- The reverse relocation by the last user of a device that has to be renamed
and is not found on the host, when the environment carries out the rename back
and the move back: exactly these are made, in that order, and the key is removed. -/
theorem moveToHostNetNS_last_renamed_back (os : OS) (cfg : VFConfig) (t : Tracker)
    (key ifName : String) (host cont : NsHandle) (tr : List Event)
    (hd1 hd2 : Handle) (l1 l2 : Link)
    (hone : t key = some 1) (hname : cfg.VFInterfaceName ≠ ifName)
    (hnone : os.findHostDevice tr cfg.VFPCIAddress cfg.VFInterfaceName host = none)
    (hren : os.Renames (tr ++ [Event.findHostDevice cfg.VFPCIAddress cfg.VFInterfaceName host])
      ifName cfg.VFInterfaceName cont hd1 l1)
    (hmove : os.Moves (tr ++ [Event.findHostDevice cfg.VFPCIAddress cfg.VFInterfaceName host]
      ++ renamedEvents ifName cfg.VFInterfaceName cont hd1 l1) cfg.VFInterfaceName cont host
      hd2 l2) :
    moveToHostNetNS os (some cfg) t key ifName host cont tr =
      ⟨none, (t.set key 0).delete key,
        tr ++ [Event.findHostDevice cfg.VFPCIAddress cfg.VFInterfaceName host]
          ++ renamedEvents ifName cfg.VFInterfaceName cont hd1 l1
          ++ movedEvents cfg.VFInterfaceName cont host hd2 l2⟩ := by
  rw [moveToHostNetNS_last_renamed os cfg t key ifName host cont tr hone hname, hnone]
  simp only [renameInterface_of_renames _ _ _ _ _ _ _ hren,
    moveInterface_of_moves _ _ _ _ _ _ _ hmove]

/-- The link operations of a history in two parts. -/
theorem linkOps_append (a b : List Event) : linkOps (a ++ b) = linkOps a ++ linkOps b := by
  simp [linkOps, List.filter_append]

/-- The events of a move are all link operations. -/
theorem linkOps_movedEvents (ifName : String) (a b : NsHandle) (handle : Handle) (link : Link) :
    linkOps (movedEvents ifName a b handle link) = movedEvents ifName a b handle link := by
  simp [linkOps, movedEvents, Event.isLinkOp]

/-- The events of a rename are all link operations. -/
theorem linkOps_renamedEvents (a b : String) (ns : NsHandle) (handle : Handle) (link : Link) :
    linkOps (renamedEvents a b ns handle link) = renamedEvents a b ns handle link := by
  simp [linkOps, renamedEvents, Event.isLinkOp]

/-- The events of a set-up are all link operations. -/
theorem linkOps_upEvents (ifName : String) (ns : NsHandle) (handle : Handle) (link : Link) :
    linkOps (upEvents ifName ns handle link) = upEvents ifName ns handle link := by
  simp [linkOps, upEvents, Event.isLinkOp]

/-- A lookup by `FindHostDevice` is a link operation. -/
theorem linkOps_findHostDevice (pci name : String) (ns : NsHandle) :
    linkOps [Event.findHostDevice pci name ns] = [Event.findHostDevice pci name ns] := by
  simp [linkOps, Event.isLinkOp]

/-- The deferred calls are no link operations. -/
theorem linkOps_deferred (isClient isMoveBack : Bool) (host cont : NsHandle) :
    linkOps (deferred isClient isMoveBack host cont) = [] := by
  cases isClient <;> cases isMoveBack <;> simp [linkOps, deferred, Event.isLinkOp]

/-- Resolution and locking are no link operations. -/
theorem linkOps_relocTrace (tr : List Event) (url : String) :
    linkOps (relocTrace tr url) = linkOps tr := by
  simp [linkOps, relocTrace, List.filter_append, Event.isLinkOp]

/-- The forward relocation raises the bound on the counts by at most one, as
long as the bound stays within the range of `int`. -/
theorem moveToContNetNS_bounded (os : OS) (vfConfig : Option VFConfig) (t : Tracker)
    (key ifName : String) (host cont : NsHandle) (tr : List Event) (b : Int)
    (h : t.Bounded b) (h0 : 0 ≤ b) (hb : b < maxInt) :
    (moveToContNetNS os vfConfig t key ifName host cont tr).tracker.Bounded (b + 1) := by
  rw [moveToContNetNS_tracker]
  have hmono := Tracker.bounded_mono t b (b + 1) h (by omega)
  cases hk : t key with
  | none => exact Tracker.bounded_set t key 1 (b + 1) hmono (le_refl 1) (by omega)
  | some count =>
    have h1 := h key count hk
    have h3 : wrapInt (count + 1) = count + 1 :=
      wrapInt_of_range _ (by unfold maxInt; omega) (by omega)
    simp only [h3]
    exact Tracker.bounded_set t key (count + 1) (b + 1) hmono (by omega) (by omega)

/-- The reverse relocation keeps the bounds on the counts. -/
theorem moveToHostNetNS_bounded (os : OS) (vfConfig : Option VFConfig) (t : Tracker)
    (key ifName : String) (host cont : NsHandle) (tr : List Event) (b : Int)
    (h : t.Bounded b) :
    (moveToHostNetNS os vfConfig t key ifName host cont tr).tracker.Bounded b := by
  rw [moveToHostNetNS_tracker]
  cases hk : t key with
  | none => exact h
  | some count =>
    have h1 := h key count hk
    simp only
    by_cases hpos : count > 0
    · simp only [hpos, if_true]
      by_cases hz : count - 1 = 0
      · simp only [hz, if_true]
        rw [Tracker.delete_set]
        exact Tracker.bounded_delete t key b h
      · simp only [hz, if_false]
        exact Tracker.bounded_set t key (count - 1) b h (by omega) (by omega)
    · simp only [hpos, if_false]
      exact h

/-- A call of `move` raises the bound on the counts by at most one, as long as
the bound stays within the range of `int`. -/
theorem move_bounded (os : OS) (conn : Connection) (loaded : Option VFConfig) (t : Tracker)
    (isClient isMoveBack : Bool) (tr : List Event) (b : Int)
    (h : t.Bounded b) (h0 : 0 ≤ b) (hb : b < maxInt) :
    (move os conn loaded t isClient isMoveBack tr).tracker.Bounded (b + 1) := by
  have hmono := Tracker.bounded_mono t b (b + 1) h (by omega)
  obtain ⟨mechanism⟩ := conn
  cases mechanism with
  | none => simpa [move] using hmono
  | some mech =>
    cases loaded with
    | none => simpa [move] using hmono
    | some cfg =>
      cases hcur : os.current tr with
      | error e => simpa [move, hcur] using hmono
      | ok host =>
        cases hurl : os.fromURL (tr ++ [Event.current]) mech.netNSURL with
        | error e => simpa [move, hcur, hurl] using hmono
        | ok resolved =>
          cases isMoveBack with
          | false =>
            have hfwd := moveToContNetNS_bounded os (some cfg) t (refKey cfg) mech.interfaceName
              host resolved (relocTrace tr mech.netNSURL) b h h0 hb
            rw [move_attach os mech cfg t isClient tr host resolved hcur hurl]
            split
            · exact moveToHostNetNS_bounded _ _ _ _ _ _ _ _ _ hfwd
            · exact hfwd
          | true =>
            rw [move_detach os mech cfg t isClient tr host resolved hcur hurl]
            exact moveToHostNetNS_bounded _ _ _ _ _ _ _ _ _ hmono

/-- A detach through `move` keeps the bounds on the counts. -/
theorem move_detach_bounded (os : OS) (conn : Connection) (loaded : Option VFConfig)
    (t : Tracker) (isClient : Bool) (tr : List Event) (b : Int) (h : t.Bounded b) :
    (move os conn loaded t isClient true tr).tracker.Bounded b := by
  obtain ⟨mechanism⟩ := conn
  cases mechanism with
  | none => simpa [move] using h
  | some mech =>
    cases loaded with
    | none => simpa [move] using h
    | some cfg =>
      cases hcur : os.current tr with
      | error e => simpa [move, hcur] using h
      | ok host =>
        cases hurl : os.fromURL (tr ++ [Event.current]) mech.netNSURL with
        | error e => simpa [move, hcur, hurl] using h
        | ok resolved =>
          rw [move_detach os mech cfg t isClient tr host resolved hcur hurl]
          exact moveToHostNetNS_bounded _ _ _ _ _ _ _ _ _ h

/-- The attach and detach counts of a sequence that starts with an attach. -/
theorem counts_cons_attach (c : Call) (cs : List Call) (h : c.isMoveBack = false) :
    attaches (c :: cs) = attaches cs + 1 ∧ detaches (c :: cs) = detaches cs := by
  simp [attaches, detaches, List.filter_cons, h]

/-- The attach and detach counts of a sequence that starts with a detach. -/
theorem counts_cons_detach (c : Call) (cs : List Call) (h : c.isMoveBack = true) :
    attaches (c :: cs) = attaches cs ∧ detaches (c :: cs) = detaches cs + 1 := by
  simp [attaches, detaches, List.filter_cons, h]

/-- An initial part of a sequence holds no more attaches than the sequence. -/
theorem attaches_take_le (cs : List Call) (m : Nat) : attaches (cs.take m) ≤ attaches cs := by
  unfold attaches
  exact ((List.take_sublist m cs).filter _).length_le

/-- A sequence of calls raises the bound on the counts by at most the number of
its attaches, as long as the bound stays within the range of `int`. -/
theorem runCalls_bounded (os : OS) (cs : List Call) :
    ∀ (t : Tracker) (tr : List Event) (b : Int), t.Bounded b → 0 ≤ b →
      b + attaches cs ≤ maxInt → (runCalls os cs t tr).1.Bounded (b + attaches cs) := by
  induction cs with
  | nil =>
    intro t tr b h _ _
    simpa [runCalls, attaches] using h
  | cons c cs ih =>
    intro t tr b h h0 hb
    simp only [runCalls]
    cases hc : c.isMoveBack with
    | false =>
      obtain ⟨ha, -⟩ := counts_cons_attach c cs hc
      rw [ha] at hb ⊢
      push_cast at hb ⊢
      have hstep := move_bounded os c.conn c.loaded t c.isClient false tr b h h0 (by omega)
      have heq : b + ((attaches cs : Int) + 1) = b + 1 + (attaches cs : Int) := by ring
      rw [heq]
      exact ih _ _ (b + 1) hstep (by omega) (by omega)
    | true =>
      obtain ⟨ha, -⟩ := counts_cons_detach c cs hc
      rw [ha] at hb ⊢
      exact ih _ _ b (move_detach_bounded os c.conn c.loaded t c.isClient tr b h) h0 hb

/-- A steady attach for the key adds one to its count, below the largest `int`. -/
theorem move_steady_attach (os : OS) (c : Call) (t : Tracker) (tr : List Event) (key : String)
    (n : Nat) (href : c.references key = true) (hst : stepSteady os c t tr = true)
    (hfwd : c.isMoveBack = false) (hcount : t key = countEntry n)
    (hn : (n : Int) < maxInt) :
    (move os c.conn c.loaded t c.isClient c.isMoveBack tr).tracker key = countEntry (n + 1) := by
  obtain ⟨conn, loaded, isClient, isMoveBack⟩ := c
  obtain ⟨mechanism⟩ := conn
  simp only at hfwd
  subst hfwd
  cases mechanism with
  | none => simp [stepSteady] at hst
  | some mech =>
    cases loaded with
    | none => simp [stepSteady] at hst
    | some cfg =>
      simp only [Call.references, beq_iff_eq] at href
      subst href
      simp only [stepSteady] at hst
      cases hcur : os.current tr with
      | error e => simp [hcur] at hst
      | ok host =>
        cases hurl : os.fromURL (tr ++ [Event.current]) mech.netNSURL with
        | error e => simp [hcur, hurl] at hst
        | ok resolved =>
          simp only [hcur, hurl, Bool.false_or, Option.isNone_iff_eq_none] at hst
          simp only [relocErr, Bool.false_eq_true, if_false] at hst
          simp only
          rw [move_attach os mech cfg t isClient tr host resolved hcur hurl, hst]
          simp only
          rw [moveToContNetNS_tracker, hcount]
          by_cases hn : n = 0
          · subst hn
            simp [countEntry]
          · have h1 : ((n : Int) = 0) = False := eq_false (by omega)
            have h2 : ((n : Int) + 1 = 0) = False := eq_false (by omega)
            have h3 : wrapInt ((n : Int) + 1) = (n : Int) + 1 :=
              wrapInt_of_range _ (by unfold maxInt; omega) (by omega)
            simp [countEntry, h1, h2, h3]

/-- A detach for the key, held at a positive count, takes one off its count. -/
theorem move_steady_detach (os : OS) (c : Call) (t : Tracker) (tr : List Event) (key : String)
    (n : Nat) (href : c.references key = true) (hst : stepSteady os c t tr = true)
    (hback : c.isMoveBack = true) (hcount : t key = countEntry (n + 1)) :
    (move os c.conn c.loaded t c.isClient c.isMoveBack tr).tracker key = countEntry n := by
  obtain ⟨conn, loaded, isClient, isMoveBack⟩ := c
  obtain ⟨mechanism⟩ := conn
  simp only at hback
  subst hback
  cases mechanism with
  | none => simp [stepSteady] at hst
  | some mech =>
    cases loaded with
    | none => simp [stepSteady] at hst
    | some cfg =>
      simp only [Call.references, beq_iff_eq] at href
      subst href
      simp only [stepSteady] at hst
      cases hcur : os.current tr with
      | error e => simp [hcur] at hst
      | ok host =>
        cases hurl : os.fromURL (tr ++ [Event.current]) mech.netNSURL with
        | error e => simp [hcur, hurl] at hst
        | ok resolved =>
          simp only
          rw [move_detach os mech cfg t isClient tr host resolved hcur hurl]
          simp only
          rw [moveToHostNetNS_tracker, hcount]
          have h2 : ((n : Int) + 1 = 0) = False := eq_false (by omega)
          have h3 : ((n : Int) + 1 > 0) = True := eq_true (by omega)
          by_cases hn : n = 0
          · subst hn
            simp [countEntry]
          · have h1 : ((n : Int) = 0) = False := eq_false (by omega)
            simp [countEntry, h1, h2, h3]

/-- Conservation from any starting count: a steady sequence for the key whose
detaches never outnumber the count held plus the attaches so far, and in which
the count cannot reach beyond the largest `int`, ends at the starting count
plus attaches minus detaches. -/
theorem runCalls_count (os : OS) (key : String) (cs : List Call) :
    ∀ (t : Tracker) (tr : List Event) (n : Nat), t key = countEntry n →
      (∀ c ∈ cs, c.references key = true) → Steady os cs t tr = true →
      (∀ m, m ≤ cs.length → detaches (cs.take m) ≤ n + attaches (cs.take m)) →
      (n : Int) + attaches cs ≤ maxInt →
      (runCalls os cs t tr).1 key = countEntry ((n : Int) + attaches cs - detaches cs) := by
  induction cs with
  | nil =>
    intro t tr n hcount _ _ _ _
    simp [runCalls, attaches, detaches, hcount]
  | cons c cs ih =>
    intro t tr n hcount href hst hbal hmax
    simp only [Steady, Bool.and_eq_true] at hst
    have hrefc := href c (List.mem_cons_self c cs)
    have hrefs : ∀ d ∈ cs, d.references key = true :=
      fun d hd => href d (List.mem_cons_of_mem c hd)
    cases hb : c.isMoveBack with
    | false =>
      obtain ⟨ha, hd⟩ := counts_cons_attach c cs hb
      rw [ha] at hmax
      push_cast at hmax
      have hstep := move_steady_attach os c t tr key n hrefc hst.1 hb hcount (by omega)
      have hbal2 : ∀ m, m ≤ cs.length →
          detaches (cs.take m) ≤ (n + 1) + attaches (cs.take m) := by
        intro m hm
        have h := hbal (m + 1) (by simpa using hm)
        rw [List.take_succ_cons] at h
        obtain ⟨ha2, hd2⟩ := counts_cons_attach c (cs.take m) hb
        omega
      have h := ih _ _ (n + 1) (by exact_mod_cast hstep) hrefs hst.2 hbal2
        (by push_cast; omega)
      simp only [runCalls]
      rw [h, ha, hd]
      congr 1
      push_cast
      ring
    | true =>
      obtain ⟨ha, hd⟩ := counts_cons_detach c cs hb
      have hpos : 1 ≤ n := by
        have h := hbal 1 (by simp)
        rw [List.take_succ_cons, List.take_zero] at h
        obtain ⟨ha2, hd2⟩ := counts_cons_detach c [] hb
        have h0 : attaches ([] : List Call) = 0 := rfl
        have h1 : detaches ([] : List Call) = 0 := rfl
        omega
      obtain ⟨k, rfl⟩ : ∃ k, n = k + 1 := ⟨n - 1, by omega⟩
      have hstep := move_steady_detach os c t tr key k hrefc hst.1 hb
        (by exact_mod_cast hcount)
      have hbal2 : ∀ m, m ≤ cs.length → detaches (cs.take m) ≤ k + attaches (cs.take m) := by
        intro m hm
        have h := hbal (m + 1) (by simpa using hm)
        rw [List.take_succ_cons] at h
        obtain ⟨ha2, hd2⟩ := counts_cons_detach c (cs.take m) hb
        omega
      have h := ih _ _ k hstep hrefs hst.2 hbal2 (by rw [ha] at hmax; push_cast at hmax ⊢; omega)
      simp only [runCalls]
      rw [h, ha, hd]
      congr 1
      push_cast
      ring

/-- An error of `moveInterfaceToAnotherNamespace` keeps what every error of the
environment contains. -/
theorem moveInterface_err_contains (os : OS) (substr : String) (hos : os.ErrorsContain substr)
    (ifName : String) (a b : NsHandle) (tr : List Event) (e : Error)
    (h : (moveInterfaceToAnotherNamespace os ifName a b tr).1 = some e) :
    stringsContains e substr = true := by
  obtain ⟨hnew, hby, hfd, -, -, -, -⟩ := hos
  unfold moveInterfaceToAnotherNamespace at h
  simp only at h
  split at h
  · next e0 h0 =>
    simp only [Option.some.injEq] at h
    subst h
    exact stringsContains_wrap _ _ _ (hnew _ _ _ h0)
  · split at h
    · next e0 h0 =>
      simp only [Option.some.injEq] at h
      subst h
      exact stringsContains_wrap _ _ _ (hby _ _ _ _ h0)
    · split at h
      · next e0 h0 =>
        simp only [Option.some.injEq] at h
        subst h
        exact stringsContains_wrap _ _ _ (hfd _ _ _ _ _ h0)
      · simp at h

/-- An error of `renameInterface` keeps what every error of the environment contains. -/
theorem renameInterface_err_contains (os : OS) (substr : String) (hos : os.ErrorsContain substr)
    (a b : String) (ns : NsHandle) (tr : List Event) (e : Error)
    (h : (renameInterface os a b ns tr).1 = some e) :
    stringsContains e substr = true := by
  obtain ⟨hnew, hby, -, hdown, hname, -, -⟩ := hos
  unfold renameInterface at h
  simp only at h
  split at h
  · next e0 h0 =>
    simp only [Option.some.injEq] at h
    subst h
    exact stringsContains_wrap _ _ _ (hnew _ _ _ h0)
  · split at h
    · next e0 h0 =>
      simp only [Option.some.injEq] at h
      subst h
      exact stringsContains_wrap _ _ _ (hby _ _ _ _ h0)
    · split at h
      · next e0 h0 =>
        simp only [Option.some.injEq] at h
        subst h
        exact stringsContains_wrap _ _ _ (hdown _ _ _ _ h0)
      · split at h
        · next e0 h0 =>
          simp only [Option.some.injEq] at h
          subst h
          exact stringsContains_wrap _ _ _ (hname _ _ _ _ _ h0)
        · simp at h

/-- An error of `upInterface` keeps what every error of the environment contains. -/
theorem upInterface_err_contains (os : OS) (substr : String) (hos : os.ErrorsContain substr)
    (ifName : String) (ns : NsHandle) (tr : List Event) (e : Error)
    (h : (upInterface os ifName ns tr).1 = some e) :
    stringsContains e substr = true := by
  obtain ⟨hnew, hby, -, -, -, hup, -⟩ := hos
  unfold upInterface at h
  simp only at h
  split at h
  · next e0 h0 =>
    simp only [Option.some.injEq] at h
    subst h
    exact stringsContains_wrap _ _ _ (hnew _ _ _ h0)
  · split at h
    · next e0 h0 =>
      simp only [Option.some.injEq] at h
      subst h
      exact stringsContains_wrap _ _ _ (hby _ _ _ _ h0)
    · split at h
      · next e0 h0 =>
        simp only [Option.some.injEq] at h
        subst h
        exact stringsContains_wrap _ _ _ (hup _ _ _ _ h0)
      · simp at h

/-- An error of the forward relocation keeps what every error of the environment contains. -/
theorem moveToContNetNS_err_contains (os : OS) (substr : String) (hos : os.ErrorsContain substr)
    (vfConfig : Option VFConfig) (t : Tracker) (key ifName : String) (host cont : NsHandle)
    (tr : List Event) (e : Error)
    (h : (moveToContNetNS os vfConfig t key ifName host cont tr).err = some e) :
    stringsContains e substr = true := by
  unfold moveToContNetNS at h
  split at h
  · simp at h
  · simp only at h
    split at h
    · simp at h
    · split at h
      · exact moveInterface_err_contains os substr hos _ _ _ _ e h
      · split at h
        · split at h
          · next e0 h0 =>
            simp only [Option.some.injEq] at h
            subst h
            exact moveInterface_err_contains os substr hos _ _ _ _ _ h0
          · split at h
            · next e0 h0 =>
              simp only [Option.some.injEq] at h
              subst h
              exact renameInterface_err_contains os substr hos _ _ _ _ _ h0
            · exact upInterface_err_contains os substr hos _ _ _ e h
        · exact moveInterface_err_contains os substr hos _ _ _ _ e h

/-- An error of the reverse relocation keeps what every error of the environment contains. -/
theorem moveToHostNetNS_err_contains (os : OS) (substr : String) (hos : os.ErrorsContain substr)
    (vfConfig : Option VFConfig) (t : Tracker) (key ifName : String) (host cont : NsHandle)
    (tr : List Event) (e : Error)
    (h : (moveToHostNetNS os vfConfig t key ifName host cont tr).err = some e) :
    stringsContains e substr = true := by
  have hplain : ∀ m : Tracker, (match os.findHostDevice tr "" ifName host with
      | some _ => (⟨none, m, tr ++ [Event.findHostDevice "" ifName host]⟩ : Out)
      | none => ⟨(moveInterfaceToAnotherNamespace os ifName cont host
            (tr ++ [Event.findHostDevice "" ifName host])).1, m,
          (moveInterfaceToAnotherNamespace os ifName cont host
            (tr ++ [Event.findHostDevice "" ifName host])).2⟩).err = some e →
      stringsContains e substr = true := by
    intro m hm
    split at hm
    · simp at hm
    · exact moveInterface_err_contains os substr hos _ _ _ _ e hm
  unfold moveToHostNetNS at h
  split at h
  · simp at h
  · split at h
    · simp only at h
      split at h
      · split at h
        · exact hplain _ h
        · split at h
          · split at h
            · split at h
              · split at h
                · next e0 h0 =>
                  simp only [Option.some.injEq] at h
                  subst h
                  exact stringsContains_wrap _ _ _ (hos.2.2.2.2.2.2 _ _ _ _ h0)
                · simp at h
              · simp at h
            · split at h
              · next e0 h0 =>
                simp only [Option.some.injEq] at h
                subst h
                exact renameInterface_err_contains os substr hos _ _ _ _ _ h0
              · exact moveInterface_err_contains os substr hos _ _ _ _ e h
          · exact hplain _ h
      · simp at h
    · simp at h

/-- The relocation error of `move` keeps what every error of the environment contains. -/
theorem relocErr_contains (os : OS) (substr : String) (hos : os.ErrorsContain substr)
    (mech : Mechanism) (cfg : VFConfig) (t : Tracker) (isMoveBack : Bool) (tr : List Event)
    (host resolved : NsHandle) (e : Error)
    (h : relocErr os mech cfg t isMoveBack tr host resolved = some e) :
    stringsContains e substr = true := by
  cases isMoveBack with
  | true =>
    simp only [relocErr, if_true] at h
    exact moveToHostNetNS_err_contains os substr hos _ _ _ _ _ _ _ e h
  | false =>
    simp only [relocErr, Bool.false_eq_true, if_false] at h
    exact moveToContNetNS_err_contains os substr hos _ _ _ _ _ _ _ e h

/-! ## The claims -/

/-! ### C1: Refcount conservation -/

/-- C1, as amended (refcount conservation): starting from the empty tracker, for
any sequence of calls of `move` that reference the same key, with fewer than
2^63 attaches (so that Go's `int` cannot wrap), in any order and whatever the
environment returns, the count stored for the key after any number of the
calls is never negative (it is at least 1 whenever the key is present). If
moreover every call resolves both handles and every attach has a forward
relocation that returns no error, and every initial part of the sequence holds
at least as many attaches as detaches, then after the N attaches and M detaches
of the sequence the entry of the key stands for N - M: the key is absent when
N - M = 0, and present with count N - M otherwise. -/
theorem refcount_conservation (os : OS) (key : String) (cs : List Call)
    (href : ∀ c ∈ cs, c.references key = true)
    (hmax : (attaches cs : Int) ≤ maxInt) :
    (∀ m count, (runCalls os (cs.take m) Tracker.empty []).1 key = some count → 1 ≤ count) ∧
    (Steady os cs Tracker.empty [] = true →
      (∀ m, m ≤ cs.length → detaches (cs.take m) ≤ attaches (cs.take m)) →
      (runCalls os cs Tracker.empty []).1 key
        = countEntry ((attaches cs : Int) - detaches cs)) := by
  refine ⟨?_, ?_⟩
  · intro m count h
    have hle := attaches_take_le cs m
    have hb := runCalls_bounded os (cs.take m) Tracker.empty [] 0 (Tracker.bounded_empty 0)
      (le_refl 0) (by omega)
    exact (hb key count h).1
  · intro hst hbal
    have h := runCalls_count os key cs Tracker.empty [] 0 rfl href hst
      (by intro m hm; have := hbal m hm; omega) (by push_cast; omega)
    rw [h]
    congr 1
    push_cast
    ring

/-- Witness of C1: two attaches and one detach of eth1 as vf0 in the
environment where every operation succeeds; the count ends at 1. -/
theorem refcount_conservation_witness :
    (∀ c ∈ [attachVf0, attachVf0, detachVf0], c.references "0000:03:00.1" = true) ∧
    (attaches [attachVf0, attachVf0, detachVf0] : Int) ≤ maxInt ∧
    Steady okOS [attachVf0, attachVf0, detachVf0] Tracker.empty [] = true ∧
    (∀ m, m ≤ [attachVf0, attachVf0, detachVf0].length →
      detaches ([attachVf0, attachVf0, detachVf0].take m)
        ≤ attaches ([attachVf0, attachVf0, detachVf0].take m)) ∧
    (runCalls okOS [attachVf0, attachVf0, detachVf0] Tracker.empty []).1 "0000:03:00.1"
      = countEntry ((attaches [attachVf0, attachVf0, detachVf0] : Int)
          - detaches [attachVf0, attachVf0, detachVf0]) ∧
    countEntry ((attaches [attachVf0, attachVf0, detachVf0] : Int)
      - detaches [attachVf0, attachVf0, detachVf0]) = some 1 :=
  ⟨by decide, by decide, by decide, by decide,
    (refcount_conservation okOS "0000:03:00.1" [attachVf0, attachVf0, detachVf0]
      (by decide) (by decide)).2 (by decide) (by decide),
    by decide⟩

/-- Counterexample to C1 as stated, at three inputs with N >= M that reference
the key 0000:03:00.1, starting from the empty tracker. A detach followed by an
attach (N = M = 1), every operation succeeding: the detach finds the key absent
and does nothing, so the count ends at 1 and not at N - M = 0. A single attach
(N = 1, M = 0) in an environment where `LinkSetNsFd` fails: the attach is rolled
back, so the key ends absent and not at count N - M = 1. A single attach in an
environment where the namespace URL does not resolve: `move` returns before it
counts, and the key ends absent as well. -/
theorem refcount_depends_on_order_and_failures :
    attaches [detachVf0, attachVf0] = 1 ∧ detaches [detachVf0, attachVf0] = 1 ∧
    (runCalls okOS [detachVf0, attachVf0] Tracker.empty []).1 "0000:03:00.1" = some 1 ∧
    attaches [attachVf0] = 1 ∧ detaches [attachVf0] = 0 ∧
    (runCalls moveFailOS [attachVf0] Tracker.empty []).1 "0000:03:00.1" = none ∧
    (runCalls noNamespaceOS [attachVf0] Tracker.empty []).1 "0000:03:00.1" = none := by
  decide

/-! ### C2: At most one physical move per transition -/

/-- C2, as amended (at most one physical move per transition): for every tracker
in which the reference key is present with some count, an attach for that key,
as `moveToContNetNS` and as `move` with isMoveBack=false once both handles are
resolved, performs no link lookup, namespace move, rename or set-up, returns no
error, and sets the count to count + 1 with Go's wrap-around: to exactly
count + 1 when the count is below the largest `int`, 2^63 - 1. So the second
of two consecutive `moveToContNetNS` for a key that was absent performs no link
operation, and neither does the second of two consecutive attaches through
`move` when the forward relocation of the first returned no error. -/
theorem attach_on_held_key_is_noop (os : OS) (vfConfig vfConfig2 : Option VFConfig)
    (mech mech2 : Mechanism) (cfg cfg2 : VFConfig) (t t0 : Tracker) (key ifName ifName2 : String)
    (host cont host2 cont2 : NsHandle) (isClient isClient2 : Bool) (tr : List Event)
    (count : Int) (hheld : t key = some count) (habsent : t0 key = none) :
    (moveToContNetNS os vfConfig t key ifName host cont tr).err = none ∧
    (moveToContNetNS os vfConfig t key ifName host cont tr).tracker
      = t.set key (wrapInt (count + 1)) ∧
    (-maxInt - 1 ≤ count → count < maxInt →
      (moveToContNetNS os vfConfig t key ifName host cont tr).tracker = t.set key (count + 1)) ∧
    (moveToContNetNS os vfConfig t key ifName host cont tr).trace = tr ∧
    (refKey cfg = key → os.current tr = .ok host →
      os.fromURL (tr ++ [Event.current]) mech.netNSURL = .ok cont →
        (move os ⟨some mech⟩ (some cfg) t isClient false tr).err = none ∧
        (move os ⟨some mech⟩ (some cfg) t isClient false tr).tracker
          = t.set key (wrapInt (count + 1)) ∧
        (-maxInt - 1 ≤ count → count < maxInt →
          (move os ⟨some mech⟩ (some cfg) t isClient false tr).tracker
            = t.set key (count + 1)) ∧
        linkOps (move os ⟨some mech⟩ (some cfg) t isClient false tr).trace = linkOps tr) ∧
    ((moveToContNetNS os vfConfig2
        (moveToContNetNS os vfConfig t0 key ifName host cont tr).tracker key ifName2 host2 cont2
        (moveToContNetNS os vfConfig t0 key ifName host cont tr).trace).trace
      = (moveToContNetNS os vfConfig t0 key ifName host cont tr).trace) ∧
    (refKey cfg = key → refKey cfg2 = key → os.current tr = .ok host →
      os.fromURL (tr ++ [Event.current]) mech.netNSURL = .ok cont →
      (moveToContNetNS os (some cfg) t0 key mech.interfaceName host cont
        (relocTrace tr mech.netNSURL)).err = none →
      os.current (move os ⟨some mech⟩ (some cfg) t0 isClient false tr).trace = .ok host2 →
      os.fromURL ((move os ⟨some mech⟩ (some cfg) t0 isClient false tr).trace ++ [Event.current])
        mech2.netNSURL = .ok cont2 →
        linkOps (move os ⟨some mech2⟩ (some cfg2)
          (move os ⟨some mech⟩ (some cfg) t0 isClient false tr).tracker isClient2 false
          (move os ⟨some mech⟩ (some cfg) t0 isClient false tr).trace).trace
        = linkOps (move os ⟨some mech⟩ (some cfg) t0 isClient false tr).trace) := by
  refine ⟨?_, ?_, ?_, ?_, ?_, ?_, ?_⟩
  · rw [moveToContNetNS_held os vfConfig t key ifName host cont tr count hheld]
  · rw [moveToContNetNS_held os vfConfig t key ifName host cont tr count hheld]
  · intro hlo hhi
    rw [moveToContNetNS_held os vfConfig t key ifName host cont tr count hheld,
      wrapInt_of_range (count + 1) (by omega) (by omega)]
  · rw [moveToContNetNS_held os vfConfig t key ifName host cont tr count hheld]
  · intro hkey hcur hurl
    subst hkey
    rw [move_attach_held os mech cfg t isClient tr host cont count hcur hurl hheld]
    refine ⟨rfl, rfl, ?_, linkOps_relocTrace_deferred _ _ _ _ _ _⟩
    intro hlo hhi
    rw [wrapInt_of_range (count + 1) (by omega) (by omega)]
  · have h1 : (moveToContNetNS os vfConfig t0 key ifName host cont tr).tracker key = some 1 := by
      rw [moveToContNetNS_tracker, habsent]
      simp
    rw [moveToContNetNS_held os vfConfig2 _ key ifName2 host2 cont2 _ 1 h1]
  · intro hkey hkey2 hcur hurl hok hcur2 hurl2
    subst hkey
    have h1 : (move os ⟨some mech⟩ (some cfg) t0 isClient false tr).tracker (refKey cfg2)
        = some 1 := by
      rw [move_attach os mech cfg t0 isClient tr host cont hcur hurl, hok, hkey2]
      simp only
      rw [moveToContNetNS_tracker, habsent]
      simp
    rw [move_attach_held os mech2 cfg2 _ isClient2 _ host2 cont2 1 hcur2 hurl2 h1]
    exact linkOps_relocTrace_deferred _ _ _ _ _ _

/-- Witness of C2: the key 0000:03:00.1 held once, attached a second time. -/
theorem attach_on_held_key_is_noop_witness :
    (Tracker.empty.set "0000:03:00.1" 1) "0000:03:00.1" = some 1 ∧
    Tracker.empty "0000:03:00.1" = none ∧
    (moveToContNetNS okOS (some vfEth1) (Tracker.empty.set "0000:03:00.1" 1) "0000:03:00.1"
      "vf0" 3 4 []).trace = [] ∧
    (moveToContNetNS okOS (some vfEth1) (Tracker.empty.set "0000:03:00.1" 1) "0000:03:00.1"
      "vf0" 3 4 []).tracker = (Tracker.empty.set "0000:03:00.1" 1).set "0000:03:00.1" (1 + 1) ∧
    (move okOS ⟨some ⟨"vf0", "file:///proc/42/ns/net"⟩⟩ (some vfEth1)
      (Tracker.empty.set "0000:03:00.1" 1) true false []).tracker
      = (Tracker.empty.set "0000:03:00.1" 1).set "0000:03:00.1" (1 + 1) ∧
    linkOps (move okOS ⟨some ⟨"vf0", "file:///proc/42/ns/net"⟩⟩ (some vfEth1)
      (Tracker.empty.set "0000:03:00.1" 1) true false []).trace = linkOps [] :=
  have h := attach_on_held_key_is_noop okOS (some vfEth1) (some vfEth1)
    ⟨"vf0", "file:///proc/42/ns/net"⟩ ⟨"vf0", "file:///proc/42/ns/net"⟩ vfEth1 vfEth1
    (Tracker.empty.set "0000:03:00.1" 1) Tracker.empty "0000:03:00.1" "vf0" "vf0" 3 4 3 4
    true true [] 1 (by decide) rfl
  ⟨by decide, rfl, h.2.2.2.1, h.2.2.1 (by decide) (by decide),
    (h.2.2.2.2.1 (by decide) rfl rfl).2.2.1 (by decide) (by decide),
    (h.2.2.2.2.1 (by decide) rfl rfl).2.2.2⟩

/-- Counterexample to C2 as stated, at two inputs. The tracker that holds the
key 0000:03:00.1 at count 2^63 - 1: an attach for that key sets the count to
-2^63, which is not an increment by 1. Two consecutive attaches through `move`
of eth1 as vf0, the key absent at first, on the kernel with one device in which
the first `LinkSetUp` fails: the first attach moves eth1 into the container
(`LinkSetNsFd` into descriptor 13), renames it, fails at the set-up, and its
rollback renames and moves the device back and removes the key again; the
second attach finds the key absent, moves eth1 into the container a second
time (`LinkSetNsFd` into descriptor 17) and succeeds. -/
theorem second_attach_moves_after_failed_first :
    (moveToContNetNS okOS (some vfEth1) (Tracker.empty.set "0000:03:00.1" 9223372036854775807)
      "0000:03:00.1" "vf0" 3 4 []).tracker "0000:03:00.1" = some (-9223372036854775808) ∧
    Tracker.empty "0000:03:00.1" = none ∧
    (move (kernelOS firstUpFails) connVf0 (some vfEth1) Tracker.empty true false []).err
      = some "failed to up net interface: vf0: operation not permitted" ∧
    linkOps (move (kernelOS firstUpFails) connVf0 (some vfEth1) Tracker.empty true false []).trace
      = [Event.findHostDevice "" "vf0" 13]
        ++ movedEvents "eth1" 10 13 10 7 ++ renamedEvents "eth1" "vf0" 13 13 7
        ++ upEvents "vf0" 13 13 7
        ++ [Event.findHostDevice "0000:03:00.1" "eth1" 10]
        ++ renamedEvents "vf0" "eth1" 13 13 7 ++ movedEvents "eth1" 13 10 13 7 ∧
    (move (kernelOS firstUpFails) connVf0 (some vfEth1) Tracker.empty true false []).tracker
      "0000:03:00.1" = none ∧
    (move (kernelOS firstUpFails) connVf0 (some vfEth1)
        (move (kernelOS firstUpFails) connVf0 (some vfEth1) Tracker.empty true false []).tracker
        true false
        (move (kernelOS firstUpFails) connVf0 (some vfEth1) Tracker.empty true false []).trace).err
      = none ∧
    linkOps (move (kernelOS firstUpFails) connVf0 (some vfEth1)
        (move (kernelOS firstUpFails) connVf0 (some vfEth1) Tracker.empty true false []).tracker
        true false
        (move (kernelOS firstUpFails) connVf0 (some vfEth1) Tracker.empty true false []).trace).trace
      = linkOps (move (kernelOS firstUpFails) connVf0 (some vfEth1) Tracker.empty true false
          []).trace
        ++ [Event.findHostDevice "" "vf0" 17]
        ++ movedEvents "eth1" 14 17 14 7 ++ renamedEvents "eth1" "vf0" 17 17 7
        ++ upEvents "vf0" 17 17 7 := by
  decide

/-! ### C3: Benign-error suppression -/

/-- C3, as amended (benign-error suppression): for every attach or detach
through `move` whose relocation step fails with an error whose message contains
"Link not found" (as does every relocation error in an environment all of whose
link errors contain it), `move` returns no error. After a detach the tracker is the one
the detach leaves in any other environment, so also in one where every
operation succeeds; a last-user detach leaves the key absent. After an attach
the tracker is the one before the call: the count the attach added is rolled back. -/
theorem benign_error_suppression (os os2 : OS) (mech : Mechanism) (cfg : VFConfig) (t : Tracker)
    (isClient isMoveBack : Bool) (tr tr2 : List Event) (host resolved host2 cont2 : NsHandle)
    (e : Error)
    (hcur : os.current tr = .ok host)
    (hurl : os.fromURL (tr ++ [Event.current]) mech.netNSURL = .ok resolved)
    (herr : relocErr os mech cfg t isMoveBack tr host resolved = some e)
    (hbenign : stringsContains e "Link not found" = true) :
    (move os ⟨some mech⟩ (some cfg) t isClient isMoveBack tr).err = none ∧
    (isMoveBack = true →
      (move os ⟨some mech⟩ (some cfg) t isClient isMoveBack tr).tracker
        = (moveToHostNetNS os2 (some cfg) t (refKey cfg) mech.interfaceName host2 cont2 tr2).tracker ∧
      (t (refKey cfg) = some 1 →
        (move os ⟨some mech⟩ (some cfg) t isClient isMoveBack tr).tracker (refKey cfg) = none)) ∧
    (isMoveBack = false →
      (move os ⟨some mech⟩ (some cfg) t isClient isMoveBack tr).tracker = t) ∧
    (∀ (os3 : OS) (t3 : Tracker) (tr3 : List Event) (h3 r3 : NsHandle) (back : Bool) (e3 : Error),
      os3.ErrorsContain "Link not found" →
      relocErr os3 mech cfg t3 back tr3 h3 r3 = some e3 →
      stringsContains e3 "Link not found" = true) := by
  refine ⟨?_, ?_, ?_, ?_⟩
  · rw [move_err os mech cfg t isClient isMoveBack tr host resolved hcur hurl, herr]
    simp [suppress, hbenign]
  · intro hback
    subst hback
    rw [move_detach os mech cfg t isClient tr host resolved hcur hurl]
    simp only
    refine ⟨?_, ?_⟩
    · rw [moveToHostNetNS_tracker, moveToHostNetNS_tracker]
    · intro h1
      rw [moveToHostNetNS_tracker, h1]
      simp
  · intro hfwd
    subst hfwd
    simp only [relocErr, Bool.false_eq_true, if_false] at herr
    exact (move_attach_failed os mech cfg t isClient tr host resolved e hcur hurl herr).1
  · intro os3 t3 tr3 h3 r3 back e3 hos h
    exact relocErr_contains os3 _ hos mech cfg t3 back tr3 h3 r3 e3 h

/-- Witness of C3: the last-user detach of vf0 in an environment where no link is
found by name; `move` returns no error and the key is absent afterwards. -/
theorem benign_error_suppression_witness :
    notFoundOS.current [] = .ok 3 ∧
    notFoundOS.fromURL ([] ++ [Event.current]) "file:///proc/42/ns/net" = .ok 4 ∧
    relocErr notFoundOS ⟨"vf0", "file:///proc/42/ns/net"⟩ vfEth1
      (Tracker.empty.set "0000:03:00.1" 1) true [] 3 4
      = some "failed to get net interface: vf0: Link not found" ∧
    stringsContains "failed to get net interface: vf0: Link not found" "Link not found" = true ∧
    (move notFoundOS ⟨some ⟨"vf0", "file:///proc/42/ns/net"⟩⟩ (some vfEth1)
      (Tracker.empty.set "0000:03:00.1" 1) true true []).err = none ∧
    (move notFoundOS ⟨some ⟨"vf0", "file:///proc/42/ns/net"⟩⟩ (some vfEth1)
      (Tracker.empty.set "0000:03:00.1" 1) true true []).tracker (refKey vfEth1) = none :=
  have h := benign_error_suppression notFoundOS okOS ⟨"vf0", "file:///proc/42/ns/net"⟩ vfEth1
    (Tracker.empty.set "0000:03:00.1" 1) true true [] [] 3 4 3 4
    "failed to get net interface: vf0: Link not found" rfl rfl (by decide) (by decide)
  ⟨rfl, rfl, by decide, by decide, h.1, (h.2.1 rfl).2 (by decide)⟩

/-- Counterexample to C3 as stated: an attach of eth1 as vf0 on the empty
tracker in an environment where `LinkByName` fails with "Link not found". `move`
returns no error, but the key is absent afterwards, whereas the same attach in
an environment where every operation succeeds leaves the key at count 1. -/
theorem benign_attach_failure_rolls_count_back :
    relocErr notFoundOS ⟨"vf0", "file:///proc/42/ns/net"⟩ vfEth1 Tracker.empty false [] 3 4
      = some "failed to get net interface: eth1: Link not found" ∧
    (move notFoundOS connVf0 (some vfEth1) Tracker.empty true false []).err = none ∧
    (move notFoundOS connVf0 (some vfEth1) Tracker.empty true false []).tracker "0000:03:00.1"
      = none ∧
    (move okOS connVf0 (some vfEth1) Tracker.empty true false []).tracker "0000:03:00.1"
      = some 1 := by
  decide

/-! ### C4: Rollback on partial failure -/

/-- C4 (rollback on partial failure), the code at a failing input: the attach of
eth1 as vf0 on the empty tracker, where the move into the container (handle 4)
succeeds and `LinkSetName` fails with "device or resource busy". `move` returns
the rename error, but the device keeps the name eth1 in the container, so the
rename back from vf0 that opens the rollback fails at its lookup, and the
reverse `moveInterfaceToAnotherNamespace` from the container (4) to the host
(3) is never entered: no `LinkSetNsFd` towards the host is made. -/
theorem rollback_skips_reverse_move :
    (move renameFailOS connVf0 (some vfEth1) Tracker.empty true false []).err
      = some "failed to rename net interface: eth1 -> vf0: device or resource busy" ∧
    linkOps (move renameFailOS connVf0 (some vfEth1) Tracker.empty true false []).trace
      = [Event.findHostDevice "" "vf0" 4,
          Event.callMove "eth1" 3 4, Event.newHandleAt 3, Event.linkByName 1 "eth1",
          Event.linkSetNsFd 1 7 4,
          Event.callRename "eth1" "vf0" 4, Event.newHandleAt 4, Event.linkByName 1 "eth1",
          Event.linkSetDown 1 7, Event.linkSetName 1 7 "vf0",
          Event.findHostDevice "0000:03:00.1" "eth1" 3,
          Event.callRename "vf0" "eth1" 4, Event.newHandleAt 4, Event.linkByName 1 "vf0"] ∧
    (move renameFailOS connVf0 (some vfEth1) Tracker.empty true false []).trace.count
      (Event.callMove "eth1" 4 3) = 0 ∧
    (move renameFailOS connVf0 (some vfEth1) Tracker.empty true false []).tracker "0000:03:00.1"
      = none := by
  decide

/-! ### C5: Idempotent attach -/

/-- C5 (idempotent attach): when the key is not yet held and `FindHostDevice`
finds a link with the target interface name in the target namespace,
`moveToContNetNS` returns no error, records the key at count 1 and leaves every
other key alone, and does nothing but that one lookup: no entry into
`moveInterfaceToAnotherNamespace`, `renameInterface` or `upInterface`. This holds
for every `vfConfig`, so whether or not the host name equals the target name. -/
theorem idempotent_attach (os : OS) (vfConfig : Option VFConfig) (t : Tracker)
    (key ifName : String) (host cont : NsHandle) (tr : List Event) (link : HostLink)
    (habsent : t key = none)
    (hfound : os.findHostDevice tr "" ifName cont = some link) :
    (moveToContNetNS os vfConfig t key ifName host cont tr).err = none ∧
    (moveToContNetNS os vfConfig t key ifName host cont tr).trace
      = tr ++ [Event.findHostDevice "" ifName cont] ∧
    calls (moveToContNetNS os vfConfig t key ifName host cont tr).trace = calls tr ∧
    (moveToContNetNS os vfConfig t key ifName host cont tr).tracker key = some 1 ∧
    ∀ k, k ≠ key → (moveToContNetNS os vfConfig t key ifName host cont tr).tracker k = t k := by
  have h : moveToContNetNS os vfConfig t key ifName host cont tr =
      ⟨none, t.set key 1, tr ++ [Event.findHostDevice "" ifName cont]⟩ := by
    simp [moveToContNetNS, habsent, hfound]
  rw [h]
  refine ⟨rfl, rfl, ?_, by simp, ?_⟩
  · simp [calls, List.filter_append, Event.isCall]
  · intro k hk
    exact Tracker.set_other t key k 1 hk

/-- Witness of C5: the device eth1 asked for as vf0, with vf0 already in the target namespace. -/
theorem idempotent_attach_witness :
    Tracker.empty "0000:03:00.1" = none ∧
    foundOS.findHostDevice [] "" "vf0" 4 = some ⟨"vf0", 9⟩ ∧
    (moveToContNetNS foundOS (some vfEth1) Tracker.empty "0000:03:00.1" "vf0" 3 4 []).err = none ∧
    (moveToContNetNS foundOS (some vfEth1) Tracker.empty "0000:03:00.1" "vf0" 3 4 []).trace
      = [] ++ [Event.findHostDevice "" "vf0" 4] ∧
    (moveToContNetNS foundOS (some vfEth1) Tracker.empty "0000:03:00.1" "vf0" 3 4 []).tracker
      "0000:03:00.1" = some 1 :=
  have h := idempotent_attach foundOS (some vfEth1) Tracker.empty "0000:03:00.1" "vf0" 3 4 []
    ⟨"vf0", 9⟩ rfl rfl
  ⟨rfl, rfl, h.1, h.2.1, h.2.2.2.1⟩

/-! ### C6: Two-connection scenario -/

/-- C6 (two-connection scenario): empty tracker, device with PCI address
0000:03:00.1 and host name eth1, connections A and B both with target vf0. The
four calls resolve the host namespace to the descriptors h1..h4 and the
container to c1..c4 (any descriptors, a fresh pair for each call); no link
named vf0 is found in the container at the first attach and the device is not
found on the host at the last detach; the environment carries out every link
operation asked of it with exactly the arguments below. After A and then B
attached, both without error, the count of key 0000:03:00.1 is 2 and the link
operations made are exactly: the lookup, then move(eth1, `LinkSetNsFd` from
h1 into c1), rename(eth1 to vf0 in c1), up(vf0 in c1), in that order. After A
detached the count is 1 and no link lookup or link operation was added. After
B detached the key is absent and what was added is exactly: the lookup on the
host, rename(vf0 to eth1 in the container) and move(eth1, `LinkSetNsFd` from the
container into h4), in that order; the container is c4, or the handle c2
stored at B's attach when c4 is not open. -/
theorem two_connection_scenario (os : OS) (urlA urlB : String) (clientA clientB : Bool)
    (h1 c1 h2 c2 h3 c3 h4 c4 : NsHandle)
    (hd1 hd2 hd3 hd4 hd5 : Handle) (l1 l2 l3 l4 l5 : Link)
    (hcur1 : os.current [] = .ok h1)
    (hurl1 : os.fromURL ([] ++ [Event.current]) urlA = .ok c1)
    (hfree : os.findHostDevice (relocTrace [] urlA) "" "vf0" c1 = none)
    (hmove : os.Moves (relocTrace [] urlA ++ [Event.findHostDevice "" "vf0" c1]) "eth1" h1 c1
      hd1 l1)
    (hren : os.Renames (relocTrace [] urlA ++ [Event.findHostDevice "" "vf0" c1]
      ++ movedEvents "eth1" h1 c1 hd1 l1) "eth1" "vf0" c1 hd2 l2)
    (hup : os.SetsUp (relocTrace [] urlA ++ [Event.findHostDevice "" "vf0" c1]
      ++ movedEvents "eth1" h1 c1 hd1 l1 ++ renamedEvents "eth1" "vf0" c1 hd2 l2) "vf0" c1
      hd3 l3)
    (hcur2 : os.current (afterAttachA os urlA clientA).trace = .ok h2)
    (hurl2 : os.fromURL ((afterAttachA os urlA clientA).trace ++ [Event.current]) urlB = .ok c2)
    (hcur3 : os.current (afterAttachB os urlA urlB clientA clientB).trace = .ok h3)
    (hurl3 : os.fromURL ((afterAttachB os urlA urlB clientA clientB).trace ++ [Event.current]) urlA = .ok c3)
    (hcur4 : os.current (afterDetachA os urlA urlB clientA clientB).trace = .ok h4)
    (hurl4 : os.fromURL ((afterDetachA os urlA urlB clientA clientB).trace ++ [Event.current]) urlB = .ok c4)
    (haway : os.findHostDevice (relocTrace (afterDetachA os urlA urlB clientA clientB).trace urlB) "0000:03:00.1" "eth1" h4 = none)
    (hrenB : os.Renames (relocTrace (afterDetachA os urlA urlB clientA clientB).trace urlB
      ++ [Event.findHostDevice "0000:03:00.1" "eth1" h4]) "vf0" "eth1"
      (targetNS ⟨"0000:03:00.1", "eth1", c2⟩ c4 true) hd4 l4)
    (hmoveB : os.Moves (relocTrace (afterDetachA os urlA urlB clientA clientB).trace urlB
      ++ [Event.findHostDevice "0000:03:00.1" "eth1" h4]
      ++ renamedEvents "vf0" "eth1" (targetNS ⟨"0000:03:00.1", "eth1", c2⟩ c4 true) hd4 l4)
      "eth1" (targetNS ⟨"0000:03:00.1", "eth1", c2⟩ c4 true) h4 hd5 l5) :
    (afterAttachA os urlA clientA).err = none ∧
    (afterAttachB os urlA urlB clientA clientB).err = none ∧
    (afterAttachB os urlA urlB clientA clientB).tracker "0000:03:00.1" = some 2 ∧
    linkOps (afterAttachB os urlA urlB clientA clientB).trace
      = [Event.findHostDevice "" "vf0" c1] ++ movedEvents "eth1" h1 c1 hd1 l1
        ++ renamedEvents "eth1" "vf0" c1 hd2 l2 ++ upEvents "vf0" c1 hd3 l3 ∧
    (afterDetachA os urlA urlB clientA clientB).err = none ∧
    (afterDetachA os urlA urlB clientA clientB).tracker "0000:03:00.1" = some 1 ∧
    linkOps (afterDetachA os urlA urlB clientA clientB).trace = linkOps (afterAttachB os urlA urlB clientA clientB).trace ∧
    (afterDetachB os urlA urlB clientA clientB).err = none ∧
    (afterDetachB os urlA urlB clientA clientB).tracker "0000:03:00.1" = none ∧
    linkOps (afterDetachB os urlA urlB clientA clientB).trace
      = linkOps (afterDetachA os urlA urlB clientA clientB).trace ++ [Event.findHostDevice "0000:03:00.1" "eth1" h4]
        ++ renamedEvents "vf0" "eth1" (targetNS ⟨"0000:03:00.1", "eth1", c2⟩ c4 true) hd4 l4
        ++ movedEvents "eth1" (targetNS ⟨"0000:03:00.1", "eth1", c2⟩ c4 true) h4 hd5 l5 := by
  have hkey : refKey vfEth1 = "0000:03:00.1" := by decide
  have hkeyc : ∀ c : NsHandle, refKey ⟨"0000:03:00.1", "eth1", c⟩ = "0000:03:00.1" := by
    intro c
    simp [refKey]
  have hname : vfEth1.VFInterfaceName ≠ "vf0" := by decide
  -- A attaches
  have hfresh := moveToContNetNS_fresh_renamed os vfEth1 Tracker.empty "0000:03:00.1" "vf0"
    h1 c1 (relocTrace [] urlA) hd1 hd2 hd3 l1 l2 l3 rfl hfree hname hmove hren hup
  have hA : afterAttachA os urlA clientA =
      ⟨none, Tracker.empty.set "0000:03:00.1" 1,
        relocTrace [] urlA ++ [Event.findHostDevice "" "vf0" c1]
          ++ movedEvents "eth1" h1 c1 hd1 l1 ++ renamedEvents "eth1" "vf0" c1 hd2 l2
          ++ upEvents "vf0" c1 hd3 l3 ++ deferred clientA false h1 c1,
        some ⟨"0000:03:00.1", "eth1", c1⟩⟩ := by
    unfold afterAttachA
    rw [move_attach os ⟨"vf0", urlA⟩ vfEth1 Tracker.empty clientA [] h1 c1 hcur1 hurl1, hkey]
    simp only [hfresh]
    rfl
  have hAops : linkOps (afterAttachA os urlA clientA).trace
      = [Event.findHostDevice "" "vf0" c1] ++ movedEvents "eth1" h1 c1 hd1 l1
        ++ renamedEvents "eth1" "vf0" c1 hd2 l2 ++ upEvents "vf0" c1 hd3 l3 := by
    rw [hA]
    simp only [linkOps_append, linkOps_deferred, linkOps_relocTrace, linkOps_movedEvents,
      linkOps_renamedEvents, linkOps_upEvents, linkOps_findHostDevice, List.append_nil]
    rfl
  -- B attaches
  have hB : afterAttachB os urlA urlB clientA clientB =
      ⟨none, (afterAttachA os urlA clientA).tracker.set "0000:03:00.1" 2,
        relocTrace (afterAttachA os urlA clientA).trace urlB ++ deferred clientB false h2 c2,
        some ⟨"0000:03:00.1", "eth1", c2⟩⟩ := by
    have h1 : (afterAttachA os urlA clientA).tracker (refKey vfEth1) = some 1 := by
      rw [hA, hkey]
      simp
    have hw : wrapInt (1 + 1) = 2 := by decide
    rw [afterAttachB, move_attach_held os ⟨"vf0", urlB⟩ vfEth1 _ clientB _ h2 c2 1 hcur2 hurl2 h1,
      hkey, hw]
    rfl
  have hBcount : (afterAttachB os urlA urlB clientA clientB).tracker "0000:03:00.1" = some 2 := by
    rw [hB]
    simp
  -- A detaches
  have hC : afterDetachA os urlA urlB clientA clientB =
      ⟨none, (afterAttachB os urlA urlB clientA clientB).tracker.set "0000:03:00.1" (2 - 1),
        relocTrace (afterAttachB os urlA urlB clientA clientB).trace urlA
          ++ deferred clientA true h3 (targetNS ⟨"0000:03:00.1", "eth1", c1⟩ c3 true),
        some ⟨"0000:03:00.1", "eth1", c1⟩⟩ := by
    have hcfg : (afterAttachA os urlA clientA).vfConfig = some ⟨"0000:03:00.1", "eth1", c1⟩ := by
      rw [hA]
    rw [afterDetachA, hcfg, move_detach os ⟨"vf0", urlA⟩ ⟨"0000:03:00.1", "eth1", c1⟩ _ clientA _
      h3 c3 hcur3 hurl3, hkeyc,
      moveToHostNetNS_not_last os _ _ "0000:03:00.1" _ h3 _ _ 2 hBcount (by decide)]
    rfl
  have hCcount : (afterDetachA os urlA urlB clientA clientB).tracker "0000:03:00.1" = some 1 := by
    rw [hC]
    simp
  -- B detaches
  have hlast := moveToHostNetNS_last_renamed_back os ⟨"0000:03:00.1", "eth1", c2⟩
    (afterDetachA os urlA urlB clientA clientB).tracker "0000:03:00.1" "vf0" h4
    (targetNS ⟨"0000:03:00.1", "eth1", c2⟩ c4 true)
    (relocTrace (afterDetachA os urlA urlB clientA clientB).trace urlB) hd4 hd5 l4 l5 hCcount
    (by show "eth1" ≠ "vf0"; decide) haway hrenB hmoveB
  have hD : afterDetachB os urlA urlB clientA clientB =
      ⟨none, ((afterDetachA os urlA urlB clientA clientB).tracker.set "0000:03:00.1" 0).delete "0000:03:00.1",
        relocTrace (afterDetachA os urlA urlB clientA clientB).trace urlB ++ [Event.findHostDevice "0000:03:00.1" "eth1" h4]
          ++ renamedEvents "vf0" "eth1" (targetNS ⟨"0000:03:00.1", "eth1", c2⟩ c4 true) hd4 l4
          ++ movedEvents "eth1" (targetNS ⟨"0000:03:00.1", "eth1", c2⟩ c4 true) h4 hd5 l5
          ++ deferred clientB true h4 (targetNS ⟨"0000:03:00.1", "eth1", c2⟩ c4 true),
        some ⟨"0000:03:00.1", "eth1", c2⟩⟩ := by
    have hcfg : (afterAttachB os urlA urlB clientA clientB).vfConfig = some ⟨"0000:03:00.1", "eth1", c2⟩ := by
      rw [hB]
    rw [afterDetachB, hcfg, move_detach os ⟨"vf0", urlB⟩ ⟨"0000:03:00.1", "eth1", c2⟩ _ clientB
      _ h4 c4 hcur4 hurl4, hkeyc, hlast]
    rfl
  refine ⟨?_, ?_, hBcount, ?_, ?_, hCcount, ?_, ?_, ?_, ?_⟩
  · rw [hA]
  · rw [hB]
  · rw [hB]
    simp only [linkOps_append, linkOps_deferred, linkOps_relocTrace, List.append_nil]
    exact hAops
  · rw [hC]
  · rw [hC]
    simp only [linkOps_append, linkOps_deferred, linkOps_relocTrace, List.append_nil]
  · rw [hD]
  · rw [hD]
    simp
  · rw [hD]
    simp only [linkOps_append, linkOps_deferred, linkOps_relocTrace, linkOps_movedEvents,
      linkOps_renamedEvents, linkOps_findHostDevice, List.append_nil]

/-- Witness of C6: the scenario on the kernel with one device, no call failing,
A on the client side and B not. The four calls get the descriptor pairs
(10, 13), (14, 17), (18, 21) and (22, 25). -/
theorem two_connection_scenario_witness :
    (kernelOS Faults.none).current [] = .ok 10 ∧
    (kernelOS Faults.none).fromURL ([] ++ [Event.current]) "file:///proc/42/ns/net" = .ok 13 ∧
    (kernelOS Faults.none).findHostDevice (relocTrace [] "file:///proc/42/ns/net") "" "vf0" 13 = none ∧
    (kernelOS Faults.none).Moves (relocTrace [] "file:///proc/42/ns/net" ++ [Event.findHostDevice "" "vf0" 13])
      "eth1" 10 13 10 7 ∧
    (afterAttachB (kernelOS Faults.none) "file:///proc/42/ns/net" "file:///proc/42/ns/net" true false).tracker "0000:03:00.1" = some 2 ∧
    linkOps (afterAttachB (kernelOS Faults.none) "file:///proc/42/ns/net" "file:///proc/42/ns/net" true false).trace
      = [Event.findHostDevice "" "vf0" 13] ++ movedEvents "eth1" 10 13 10 7
        ++ renamedEvents "eth1" "vf0" 13 13 7 ++ upEvents "vf0" 13 13 7 ∧
    (afterDetachA (kernelOS Faults.none) "file:///proc/42/ns/net" "file:///proc/42/ns/net" true false).tracker "0000:03:00.1" = some 1 ∧
    (afterDetachB (kernelOS Faults.none) "file:///proc/42/ns/net" "file:///proc/42/ns/net" true false).tracker "0000:03:00.1" = none ∧
    linkOps (afterDetachB (kernelOS Faults.none) "file:///proc/42/ns/net" "file:///proc/42/ns/net" true false).trace
      = linkOps (afterDetachA (kernelOS Faults.none) "file:///proc/42/ns/net" "file:///proc/42/ns/net" true false).trace
        ++ [Event.findHostDevice "0000:03:00.1" "eth1" 22]
        ++ renamedEvents "vf0" "eth1" (targetNS ⟨"0000:03:00.1", "eth1", 17⟩ 25 true) 25 7
        ++ movedEvents "eth1" (targetNS ⟨"0000:03:00.1", "eth1", 17⟩ 25 true) 22 25 7 :=
  have h := two_connection_scenario (kernelOS Faults.none) "file:///proc/42/ns/net" "file:///proc/42/ns/net" true false
    10 13 14 17 18 21 22 25 10 13 13 25 25 7 7 7 7 7
    rfl rfl rfl ⟨rfl, rfl, rfl⟩ ⟨rfl, rfl, rfl, rfl⟩ ⟨rfl, rfl, rfl⟩
    rfl rfl rfl rfl rfl rfl rfl ⟨rfl, rfl, rfl, rfl⟩ ⟨rfl, rfl, rfl⟩
  ⟨rfl, rfl, rfl, ⟨rfl, rfl, rfl⟩, h.2.2.1, h.2.2.2.1, h.2.2.2.2.2.1, h.2.2.2.2.2.2.2.2.1,
    h.2.2.2.2.2.2.2.2.2⟩

/-! ### C7: Failure tie-break rule -/

/-- C7, as amended (failure tie-break rule): for every call of `move` that
reaches the relocation step, if the message of the relocation error contains
"Link not found" (with a capital L, as netlink writes it) or "bad file
descriptor", `move` returns no error; for every other relocation error `move`
returns exactly that error; and if the relocation step returns no error, `move`
returns no error. -/
theorem failure_tie_break (os : OS) (mech : Mechanism) (cfg : VFConfig) (t : Tracker)
    (isClient isMoveBack : Bool) (tr : List Event) (host resolved : NsHandle)
    (hcur : os.current tr = .ok host)
    (hurl : os.fromURL (tr ++ [Event.current]) mech.netNSURL = .ok resolved) :
    (∀ e, relocErr os mech cfg t isMoveBack tr host resolved = some e →
      (stringsContains e "Link not found" = true ∨ stringsContains e "bad file descriptor" = true) →
      (move os ⟨some mech⟩ (some cfg) t isClient isMoveBack tr).err = none) ∧
    (∀ e, relocErr os mech cfg t isMoveBack tr host resolved = some e →
      stringsContains e "Link not found" = false →
      stringsContains e "bad file descriptor" = false →
      (move os ⟨some mech⟩ (some cfg) t isClient isMoveBack tr).err = some e) ∧
    (relocErr os mech cfg t isMoveBack tr host resolved = none →
      (move os ⟨some mech⟩ (some cfg) t isClient isMoveBack tr).err = none) := by
  rw [move_err os mech cfg t isClient isMoveBack tr host resolved hcur hurl]
  refine ⟨?_, ?_, ?_⟩
  · intro e he hb
    rw [he]
    rcases hb with hb | hb <;> simp [suppress, hb]
  · intro e he h1 h2
    rw [he]
    simp [suppress, h1, h2]
  · intro he
    rw [he]
    rfl

/-- Witness of C7: an attach in an environment where no link is found by name;
the relocation error ends in "Link not found" and `move` returns no error. -/
theorem failure_tie_break_witness :
    notFoundOS.current [] = .ok 3 ∧
    notFoundOS.fromURL ([] ++ [Event.current]) "file:///proc/42/ns/net" = .ok 4 ∧
    relocErr notFoundOS ⟨"vf0", "file:///proc/42/ns/net"⟩ vfEth1 Tracker.empty false [] 3 4
      = some "failed to get net interface: eth1: Link not found" ∧
    (move notFoundOS ⟨some ⟨"vf0", "file:///proc/42/ns/net"⟩⟩ (some vfEth1) Tracker.empty true
      false []).err = none :=
  ⟨rfl, rfl, by decide,
    (failure_tie_break notFoundOS ⟨"vf0", "file:///proc/42/ns/net"⟩ vfEth1 Tracker.empty true
      false [] 3 4 rfl rfl).1 "failed to get net interface: eth1: Link not found" (by decide)
      (Or.inl (by decide))⟩

/-- Counterexample to C7 as stated, at two inputs, both the attach of eth1 as
vf0 on the empty tracker. Where `LinkByName` fails with "link not found" in
lower case, the message of the relocation error contains the substring "link
not found", and `move` returns that error. Where `LinkByName` fails with "Link
not found", as netlink writes it, the message contains neither "link not
found" nor "bad file descriptor", and `move` returns no error. The test of the
code is for "Link not found", and is case-sensitive. -/
theorem lower_case_link_not_found_is_returned :
    relocErr lowerCaseOS ⟨"vf0", "file:///proc/42/ns/net"⟩ vfEth1 Tracker.empty false [] 3 4
      = some "failed to get net interface: eth1: link not found" ∧
    stringsContains "failed to get net interface: eth1: link not found" "link not found" = true ∧
    (move lowerCaseOS connVf0 (some vfEth1) Tracker.empty true false []).err
      = some "failed to get net interface: eth1: link not found" ∧
    relocErr notFoundOS ⟨"vf0", "file:///proc/42/ns/net"⟩ vfEth1 Tracker.empty false [] 3 4
      = some "failed to get net interface: eth1: Link not found" ∧
    stringsContains "failed to get net interface: eth1: Link not found" "link not found" = false ∧
    stringsContains "failed to get net interface: eth1: Link not found" "bad file descriptor"
      = false ∧
    (move notFoundOS connVf0 (some vfEth1) Tracker.empty true false []).err = none := by
  decide

/-! ### C8: Tracker invariant -/

/-- C8, as amended (tracker invariant): if every key present in the tracker has
a count of at least 1, the same holds after any detach (`moveToHostNetNS`, and
`move` with isMoveBack=true), for any key and whatever the environment does;
it holds after any attach (`moveToContNetNS`, and `move` with isMoveBack=false,
rollback included) for a key that is absent or whose count is below the
largest `int`, 2^63 - 1; and a detach of a key held at count 1, which brings the
count to 0, leaves the key absent. -/
theorem tracker_invariant_preserved (os : OS) (vfConfig : Option VFConfig) (conn : Connection)
    (loaded : Option VFConfig) (t : Tracker) (key ifName : String) (host cont : NsHandle)
    (isClient isMoveBack : Bool) (tr : List Event) (hinv : t.Inv) :
    ((∀ c, t key = some c → c < maxInt) →
      (moveToContNetNS os vfConfig t key ifName host cont tr).tracker.Inv) ∧
    (moveToHostNetNS os vfConfig t key ifName host cont tr).tracker.Inv ∧
    ((isMoveBack = false → ∀ cfg c, loaded = some cfg → t (refKey cfg) = some c → c < maxInt) →
      (move os conn loaded t isClient isMoveBack tr).tracker.Inv) ∧
    (t key = some 1 →
      (moveToHostNetNS os vfConfig t key ifName host cont tr).tracker key = none) := by
  refine ⟨fun hb => moveToContNetNS_inv _ _ _ _ _ _ _ _ hinv hb,
    moveToHostNetNS_inv _ _ _ _ _ _ _ _ hinv,
    fun hb => move_inv _ _ _ _ _ _ _ hinv hb, ?_⟩
  intro h1
  rw [moveToHostNetNS_tracker, h1]
  simp

/-- Witness of C8: the empty tracker, and the device eth1 attached as vf0. -/
theorem tracker_invariant_preserved_witness :
    Tracker.empty.Inv ∧
    (moveToContNetNS okOS (some vfEth1) Tracker.empty "0000:03:00.1" "vf0" 3 4 []).tracker.Inv ∧
    (moveToHostNetNS okOS (some vfEth1) Tracker.empty "0000:03:00.1" "vf0" 3 4 []).tracker.Inv ∧
    (move okOS connVf0 (some vfEth1) Tracker.empty true false []).tracker.Inv :=
  have h := tracker_invariant_preserved okOS (some vfEth1) connVf0 (some vfEth1) Tracker.empty
    "0000:03:00.1" "vf0" 3 4 true false [] Tracker.inv_empty
  ⟨Tracker.inv_empty, h.1 (fun c hc => by simp [Tracker.empty] at hc), h.2.1,
    h.2.2.1 (fun _ cfg c _ hc => by simp [Tracker.empty] at hc)⟩

/-- Counterexample to C8 as stated: the tracker that holds the key 0000:03:00.1
at count 2^63 - 1 alone satisfies the invariant; an attach for that key, as
`moveToContNetNS` and as `move`, wraps the count to -2^63, and the invariant no
longer holds. -/
theorem attach_at_largest_count_wraps :
    (Tracker.empty.set "0000:03:00.1" 9223372036854775807).Inv ∧
    (moveToContNetNS okOS (some vfEth1) (Tracker.empty.set "0000:03:00.1" 9223372036854775807)
      "0000:03:00.1" "vf0" 3 4 []).tracker "0000:03:00.1" = some (-9223372036854775808) ∧
    ¬ (moveToContNetNS okOS (some vfEth1) (Tracker.empty.set "0000:03:00.1" 9223372036854775807)
      "0000:03:00.1" "vf0" 3 4 []).tracker.Inv ∧
    (move okOS connVf0 (some vfEth1) (Tracker.empty.set "0000:03:00.1" 9223372036854775807)
      true false []).tracker "0000:03:00.1" = some (-9223372036854775808) ∧
    ¬ (move okOS connVf0 (some vfEth1) (Tracker.empty.set "0000:03:00.1" 9223372036854775807)
      true false []).tracker.Inv := by
  refine ⟨Tracker.inv_set _ _ _ Tracker.inv_empty (by decide), by decide, ?_, by decide, ?_⟩
  · intro h
    exact absurd (h "0000:03:00.1" (-9223372036854775808) (by decide)) (by decide)
  · intro h
    exact absurd (h "0000:03:00.1" (-9223372036854775808) (by decide)) (by decide)

/-! ### C9: Namespace handle lifetime -/

/-- C9, as amended (namespace handle lifetime): for every call of `move` that
resolves both namespace handles, closing the host handle is the last thing the
call does. An attach with isClient=true closes nothing else, so the target
handle, which a successful attach stores in `VFConfig.ContNetNS`, is not closed
by `move` (when it is another handle than the host one). An attach with
isClient=false closes the target handle on exit as well, before the host handle,
although a successful attach has stored it in `VFConfig.ContNetNS`. A detach
closes the target handle after the reverse relocation `moveToHostNetNS` has
completed and the lock is released. -/
theorem namespace_handle_lifetime (os : OS) (mech : Mechanism) (cfg : VFConfig) (t : Tracker)
    (isClient : Bool) (tr : List Event) (host resolved : NsHandle)
    (hcur : os.current tr = .ok host)
    (hurl : os.fromURL (tr ++ [Event.current]) mech.netNSURL = .ok resolved) :
    (∀ isMoveBack, ∃ before,
      (move os ⟨some mech⟩ (some cfg) t isClient isMoveBack tr).trace
        = before ++ [Event.close host]) ∧
    closes (move os ⟨some mech⟩ (some cfg) t true false tr).trace
      = closes tr ++ [Event.close host] ∧
    (resolved ≠ host →
      (closes (move os ⟨some mech⟩ (some cfg) t true false tr).trace).count (Event.close resolved)
        = (closes tr).count (Event.close resolved)) ∧
    closes (move os ⟨some mech⟩ (some cfg) t false false tr).trace
      = closes tr ++ [Event.close resolved, Event.close host] ∧
    (relocErr os mech cfg t false tr host resolved = none →
      (move os ⟨some mech⟩ (some cfg) t isClient false tr).vfConfig
        = some { cfg with ContNetNS := resolved }) ∧
    (move os ⟨some mech⟩ (some cfg) t isClient true tr).trace
      = (moveToHostNetNS os (some cfg) t (refKey cfg) mech.interfaceName host
          (targetNS cfg resolved true) (relocTrace tr mech.netNSURL)).trace
        ++ [Event.unlock, Event.close (targetNS cfg resolved true), Event.close host] := by
  refine ⟨?_, ?_, ?_, ?_, ?_, ?_⟩
  · intro isMoveBack
    cases isMoveBack with
    | true =>
      rw [move_detach os mech cfg t isClient tr host resolved hcur hurl]
      simp only [deferred, ← List.append_assoc]
      exact ⟨_, rfl⟩
    | false =>
      rw [move_attach os mech cfg t isClient tr host resolved hcur hurl]
      split
      · simp only [deferred, ← List.append_assoc]
        exact ⟨_, rfl⟩
      · simp only [deferred, ← List.append_assoc]
        exact ⟨_, rfl⟩
  · rw [closes_move_attach os mech cfg t true tr host resolved hcur hurl]
    simp
  · intro hne
    rw [closes_move_attach os mech cfg t true tr host resolved hcur hurl]
    have : Event.close host ≠ Event.close resolved := by
      intro h
      injection h with h
      exact hne h.symm
    have hc : List.count (Event.close resolved) [Event.close host] = 0 :=
      List.count_eq_zero.mpr (by simpa using this.symm)
    simp [List.count_append, hc]
  · rw [closes_move_attach os mech cfg t false tr host resolved hcur hurl]
    simp
  · intro hok
    simp only [relocErr, Bool.false_eq_true, if_false] at hok
    rw [move_attach os mech cfg t isClient tr host resolved hcur hurl, hok]
  · rw [move_detach os mech cfg t isClient tr host resolved hcur hurl]
    simp [deferred]

/-- Witness of C9: the attach of eth1 as vf0 on the client side; only the host
handle 3 is closed, and handle 4 is stored in `ContNetNS`. -/
theorem namespace_handle_lifetime_witness :
    okOS.current [] = .ok 3 ∧
    okOS.fromURL ([] ++ [Event.current]) "file:///proc/42/ns/net" = .ok 4 ∧
    closes (move okOS ⟨some ⟨"vf0", "file:///proc/42/ns/net"⟩⟩ (some vfEth1) Tracker.empty true
      false []).trace = closes [] ++ [Event.close 3] ∧
    (move okOS ⟨some ⟨"vf0", "file:///proc/42/ns/net"⟩⟩ (some vfEth1) Tracker.empty true
      false []).vfConfig = some { vfEth1 with ContNetNS := 4 } :=
  have h := namespace_handle_lifetime okOS ⟨"vf0", "file:///proc/42/ns/net"⟩ vfEth1
    Tracker.empty true [] 3 4 rfl rfl
  ⟨rfl, rfl, h.2.1, h.2.2.2.2.1 (by decide)⟩

/-- Counterexample to C9 as stated: the attach of eth1 as vf0 with isClient=false
in an environment where every operation succeeds. The attach succeeds, handle 4
is stored in `VFConfig.ContNetNS`, and `move` closes handle 4 on exit, before
the host handle 3. -/
theorem server_side_attach_closes_target :
    (move okOS connVf0 (some vfEth1) Tracker.empty false false []).err = none ∧
    (move okOS connVf0 (some vfEth1) Tracker.empty false false []).vfConfig
      = some ⟨"0000:03:00.1", "eth1", 4⟩ ∧
    closes (move okOS connVf0 (some vfEth1) Tracker.empty false false []).trace
      = [Event.close 4, Event.close 3] := by
  decide

/-! ### C10: Tracker atomicity of a failed attach -/

/-- C10 (tracker atomicity of a failed attach): for every tracker and every
attach through `move` that resolves both handles and whose forward relocation
`moveToContNetNS` returns an error (benign or not), the tracker after `move`
equals the tracker before the call, and the `VFConfig` record, `ContNetNS`
included, is unchanged. -/
theorem failed_attach_restores_tracker (os : OS) (mech : Mechanism) (cfg : VFConfig)
    (t : Tracker) (isClient : Bool) (tr : List Event) (host resolved : NsHandle) (err : Error)
    (hcur : os.current tr = .ok host)
    (hurl : os.fromURL (tr ++ [Event.current]) mech.netNSURL = .ok resolved)
    (hfail : (moveToContNetNS os (some cfg) t (refKey cfg) mech.interfaceName host resolved
      (relocTrace tr mech.netNSURL)).err = some err) :
    (move os ⟨some mech⟩ (some cfg) t isClient false tr).tracker = t ∧
    (move os ⟨some mech⟩ (some cfg) t isClient false tr).vfConfig = some cfg := by
  exact move_attach_failed os mech cfg t isClient tr host resolved err hcur hurl hfail

/-- Witness of C10: moving eth1 fails with "operation not permitted". -/
theorem failed_attach_restores_tracker_witness :
    moveFailOS.current [] = .ok 3 ∧
    moveFailOS.fromURL ([] ++ [Event.current]) "file:///proc/42/ns/net" = .ok 4 ∧
    (moveToContNetNS moveFailOS (some vfEth1) Tracker.empty (refKey vfEth1) "vf0" 3 4
      (relocTrace [] "file:///proc/42/ns/net")).err
      = some "failed to move net interface to net NS: eth1 NS(4): operation not permitted" ∧
    (move moveFailOS connVf0 (some vfEth1) Tracker.empty true false []).tracker = Tracker.empty ∧
    (move moveFailOS connVf0 (some vfEth1) Tracker.empty true false []).vfConfig = some vfEth1 :=
  have h := failed_attach_restores_tracker moveFailOS ⟨"vf0", "file:///proc/42/ns/net"⟩ vfEth1
    Tracker.empty true [] 3 4
    "failed to move net interface to net NS: eth1 NS(4): operation not permitted" rfl rfl
    (by decide)
  ⟨rfl, rfl, by decide, h.1, h.2⟩

end Inject
